import Mathlib

/-!
Verification of the Track Rendering & Interaction Engine of the
atlas-particle-viewer repository.

The development shallowly embeds the two files the claims are about:

* `src/data-loader.js`  — `DataLoader.validateEvent`, `DataLoader.validateParticle`,
  `DataLoader.generateSimpleTrajectory` are embedded over a model of JavaScript
  values (`JSVal`).  JavaScript numbers are modelled as real numbers plus an
  explicit `nan` constructor (the validator only distinguishes `typeof`,
  `isNaN`, truthiness and exact-zero tests, so finite reals together with `nan`
  capture every distinction the code makes; the single place an infinite value
  can arise — `Math.log 0` inside the pseudorapidity — is modelled faithfully
  with extended reals, see `etaE` below).

* `src/particle-tracks.js` — the renderer (`loadTracks`,
  `createParticleTrack`, `createSimplifiedTrack`, `createDetailedTrack`), the
  emergence animation (`startAnimation`, `animateFrame`, `easeOutCubic`), the
  pointer interaction (`handleMouseMove`, `handleClick`, `highlightTrack`,
  `resetTrackAppearance`, `clearTracks`) and the filters (`filterByType`,
  `filterByEnergy`, `filterByPt`) are embedded over typed records, with the
  scene-graph side effects made explicit as state-passing functions.
-/

/-- Model of a JavaScript value as manipulated by the data loader.  Numbers are
finite reals; `nan` models the NaN double (for which `typeof` is still
"number" but `isNaN` holds). -/
inductive JSVal : Type where
  | num (x : Real)
  | nan
  | str (s : String)
  | bool (b : Bool)
  | null
  | undefined
  | arr (elems : List JSVal)
  | obj (fields : List (String × JSVal))
deriving Inhabited

namespace JSVal

/-- The JavaScript `typeof` operator on the modelled values. -/
def jsTypeof : JSVal → String
  | num _ => "number"
  | nan => "number"
  | str _ => "string"
  | bool _ => "boolean"
  | null => "object"
  | undefined => "undefined"
  | arr _ => "object"
  | obj _ => "object"

/-- JavaScript truthiness: `0`, `NaN`, the empty string, `false`, `null` and
`undefined` are falsy; every object and array (even empty) is truthy. -/
noncomputable def jsTruthy : JSVal → Bool
  | num x => if x = 0 then false else true
  | nan => false
  | str s => if s = "" then false else true
  | bool b => b
  | null => false
  | undefined => false
  | arr _ => true
  | obj _ => true

/-- Property lookup `v[k]` giving `undefined` when the key is missing or the
value is not an object (array index and string lookups with the string keys the
loader uses also give `undefined`). -/
def getField : JSVal → String → JSVal
  | obj fields, k =>
    match fields.lookup k with
    | some v => v
    | none => undefined
  | _, _ => undefined

/-- The JavaScript `in` operator restricted to the string keys the loader
tests; on anything but a plain object (in particular on arrays, which hold no
such keys) it is false. -/
def objHas : JSVal → String → Bool
  | obj fields, k => (fields.lookup k).isSome
  | _, _ => false

/-- Is the value an array (`Array.isArray`)? -/
def isArr : JSVal → Bool
  | arr _ => true
  | _ => false

/-- The numeric value of a number; `0` as a junk default elsewhere (only ever
read after a `typeof x === "number" && !isNaN(x)` check has passed). -/
def asNum : JSVal → Real
  | num x => x
  | _ => 0

/-- Does the value pass `typeof x === "number" && !isNaN(x)` (the check used
for the required particle momentum and energy fields)? -/
def isFiniteNum : JSVal → Bool
  | num _ => true
  | _ => false

/-- Does the value pass `typeof x === "number"` alone (the check used for the
vertex and for trajectory point coordinates, where NaN still passes)? -/
def isNumTypeof : JSVal → Bool
  | num _ => true
  | nan => true
  | _ => false

/-- Key update with JavaScript object-spread semantics: an existing key keeps
its position and receives the new value, a missing key is appended. -/
def setKey : List (String × JSVal) → String → JSVal → List (String × JSVal)
  | [], k, v => [(k, v)]
  | (k0, v0) :: rest, k, v =>
    if k0 = k then (k, v) :: rest else (k0, v0) :: setKey rest k v

/-- The field list of a plain object (empty for every other value; only used
where the code has already established objecthood). -/
def fieldsOf : JSVal → List (String × JSVal)
  | obj fields => fields
  | _ => []

/-- Point object `\x7b x, y, z \x7d` as produced by the loader. -/
def pointObj (x y z : JSVal) : JSVal :=
  obj [("x", x), ("y", y), ("z", z)]

end JSVal

section DataLoader

open JSVal

/-- JavaScript `Math.atan2 y x` on finite doubles (signed zeros ignored, which
the loader never distinguishes). -/
noncomputable def jsAtan2 (y x : Real) : Real :=
  if 0 < x then Real.arctan (y / x)
  else if x < 0 then
    (if 0 ≤ y then Real.arctan (y / x) + Real.pi else Real.arctan (y / x) - Real.pi)
  else
    (if 0 < y then Real.pi / 2 else if y < 0 then -(Real.pi / 2) else 0)

/-- JavaScript `Math.log` valued in the extended reals: `log 0 = -Infinity`.
Negative arguments give NaN in JavaScript; they never occur at the single call
site (the tangent of an angle in `[0, pi/4)`), so they are left at the
`Real.log` junk value. -/
noncomputable def jsLogE (x : Real) : EReal :=
  if x = 0 then ⊥ else ((Real.log x : Real) : EReal)

/-- Pseudorapidity as computed by `validateParticle`:
`pz !== 0 ? -Math.log(Math.tan(Math.atan2(pt, Math.abs(pz)) / 2)) : 0`,
valued in the extended reals so that the `Math.log 0 = -Infinity` case
(`pt = 0`, `pz ≠ 0`, where JavaScript yields `+Infinity`) is represented
faithfully. -/
noncomputable def etaE (px py pz : Real) : EReal :=
  if pz = 0 then 0
  else
    -(jsLogE (Real.tan (jsAtan2 (Real.sqrt (px * px + py * py)) |pz| / 2)))

/-- The finite-real shadow of `etaE` stored in the derived-field object (the
number model has no infinity; `EReal.toReal` sends the unrepresentable
`+Infinity` of the `pt = 0, pz ≠ 0` corner to the junk value `0`). -/
noncomputable def etaReal (px py pz : Real) : Real :=
  (etaE px py pz).toReal

/-- DataLoader.generateSimpleTrajectory: a straight 6-point line from the
origin along the normalized momentum direction spanning 5.0 length units, or a
single zero point for exactly zero momentum. -/
noncomputable def generateSimpleTrajectory (px py pz : Real) : List JSVal :=
  let momentum := Real.sqrt (px * px + py * py + pz * pz)
  if momentum = 0 then [pointObj (num 0) (num 0) (num 0)]
  else
    (List.range 6).map fun (i : Nat) =>
      let distance : Real := ((i : Real) / (6 - 1)) * 5.0
      pointObj (num (distance * (px / momentum)))
        (num (distance * (py / momentum)))
        (num (distance * (pz / momentum)))

/-- Validation of one trajectory point: must be a truthy object whose `x`,
`y`, `z` fields have `typeof` "number"; on success the three coordinates are
copied into a fresh point object. -/
noncomputable def validatePoint (p : JSVal) : Except String JSVal :=
  if ¬(jsTruthy p = true ∧ jsTypeof p = "object") then
    Except.error "trajectory point must be an object"
  else if ¬(isNumTypeof (getField p "x") = true ∧ isNumTypeof (getField p "y") = true ∧
      isNumTypeof (getField p "z") = true) then
    Except.error "trajectory point coordinates must be numbers"
  else
    Except.ok (pointObj (getField p "x") (getField p "y") (getField p "z"))

/-- Validation of a whole trajectory array (the `trajectory.map` in the
source): the first failing point aborts the validation. -/
noncomputable def validatePoints : List JSVal → Except String (List JSVal)
  | [] => Except.ok []
  | p :: rest => do
    let q ← validatePoint p
    let qs ← validatePoints rest
    pure (q :: qs)

/-- Required particle fields checked with the `in` operator. -/
def requiredParticleFields : List String := ["id", "type", "px", "py", "pz", "E"]

/-- Particle fields additionally required to be valid (non-NaN) numbers. -/
def numericParticleFields : List String := ["px", "py", "pz", "E"]

/-- The derived-kinematics object attached by `validateParticle`. -/
noncomputable def derivedObj (px py pz : Real) : JSVal :=
  obj [("pt", num (Real.sqrt (px * px + py * py))),
       ("momentum", num (Real.sqrt (px * px + py * py + pz * pz))),
       ("eta", num (etaReal px py pz)),
       ("phi", num (jsAtan2 py px))]

/-- DataLoader.validateParticle: checks objecthood, required-field presence,
numeric-field validity; validates a truthy trajectory pointwise (a present
trajectory that is not an array is an error) or synthesizes one when the
trajectory field is falsy; returns the spread
`\x7b ...particle, trajectory, derived \x7d`.  Error messages are collapsed to
fixed strings (the claims concern only success versus failure). -/
noncomputable def validateParticle (p : JSVal) : Except String JSVal :=
  if ¬(jsTruthy p = true ∧ jsTypeof p = "object") then
    Except.error "particle must be an object"
  else if ¬(requiredParticleFields.all fun f => objHas p f) then
    Except.error "particle missing required field"
  else if ¬(numericParticleFields.all fun f => isFiniteNum (getField p f)) then
    Except.error "particle field must be a valid number"
  else
    let px := asNum (getField p "px")
    let py := asNum (getField p "py")
    let pz := asNum (getField p "pz")
    let tv := getField p "trajectory"
    let assemble : List JSVal → JSVal := fun traj =>
      obj (setKey (setKey (fieldsOf p) "trajectory" (arr traj)) "derived"
        (derivedObj px py pz))
    if jsTruthy tv = true then
      match tv with
      | arr pts =>
        match validatePoints pts with
        | Except.ok tps => Except.ok (assemble tps)
        | Except.error e => Except.error e
      | _ => Except.error "particle trajectory must be an array"
    else
      Except.ok (assemble (generateSimpleTrajectory px py pz))

/-- The `particles.map(validateParticle)` of the source: the first failing
particle aborts the whole validation (all-or-nothing). -/
noncomputable def validateParticles : List JSVal → Except String (List JSVal)
  | [] => Except.ok []
  | p :: rest => do
    let q ← validateParticle p
    let qs ← validateParticles rest
    pure (q :: qs)

/-- Required top-level event fields checked with the `in` operator. -/
def requiredEventFields : List String := ["event_id", "particles", "vertex"]

/-- DataLoader.validateEvent.  The `now` argument stands for the
`new Date().toISOString()` timestamp written into `metadata.validated_at`. -/
noncomputable def validateEvent (now : String) (ev : JSVal) : Except String JSVal :=
  if ¬(jsTruthy ev = true ∧ jsTypeof ev = "object") then
    Except.error "event data must be an object"
  else if ¬(requiredEventFields.all fun f => objHas ev f) then
    Except.error "missing required field"
  else
    let vertex := getField ev "vertex"
    if ¬(jsTruthy vertex = true ∧ jsTypeof vertex = "object") then
      Except.error "vertex must be an object"
    else if ¬(isNumTypeof (getField vertex "x") = true ∧
        isNumTypeof (getField vertex "y") = true ∧
        isNumTypeof (getField vertex "z") = true) then
      Except.error "vertex coordinates must be numbers"
    else
      match getField ev "particles" with
      | arr ps =>
        match validateParticles ps with
        | Except.ok vps =>
          Except.ok (obj (setKey (setKey (fieldsOf ev) "particles" (arr vps)) "metadata"
            (obj (List.foldl (fun fs kv => setKey fs kv.1 kv.2)
              (fieldsOf (getField ev "metadata"))
              [("particle_count", num vps.length), ("validated_at", str now)]))))
        | Except.error e => Except.error e
      | _ => Except.error "particles must be an array"

end DataLoader

section ParticleTracks

/-- A 3D point as consumed by the renderer. -/
structure RPoint where
  x : Real
  y : Real
  z : Real
deriving Inhabited

/-- The slice of a validated particle object the renderer reads. -/
structure RParticle where
  pid : Int
  ptype : String
  px : Real
  py : Real
  pz : Real
  energy : Real
  trajectory : List RPoint
deriving Inhabited

/-- One row of the PARTICLE_CONFIG appearance table. -/
structure PConfig where
  color : Nat
  thickness : Real

/-- The PARTICLE_CONFIG lookup `PARTICLE_CONFIG[type] || PARTICLE_CONFIG.unknown`. -/
def particleConfig : String → PConfig
  | "electron" => ⟨0x00FF00, 2.5⟩
  | "positron" => ⟨0x00FF88, 2.5⟩
  | "muon" => ⟨0xFF0000, 3.0⟩
  | "photon" => ⟨0xFFFF00, 2.0⟩
  | "pion_plus" => ⟨0x0080FF, 2.0⟩
  | "pion_minus" => ⟨0x8000FF, 2.0⟩
  | "kaon_plus" => ⟨0xFF8000, 2.0⟩
  | "kaon_minus" => ⟨0xFF4000, 2.0⟩
  | "proton" => ⟨0xFF0080, 2.5⟩
  | "neutron" => ⟨0x808080, 2.0⟩
  | _ => ⟨0xCCCCCC, 1.5⟩

/-- The point down-sampling loop of `createSimplifiedTrack`: stride
`step = max(1, floor(length / 8))`, pushing the points at indices
`0, step, 2·step, ...` below `length` and then appending the final point
whenever anything was pushed (i.e. whenever the trajectory is non-empty). -/
def simplifyTrajectory {α : Type} [Inhabited α] (traj : List α) : List α :=
  let step := max 1 (traj.length / 8)
  let strided := (List.range ((traj.length + step - 1) / step)).map fun k =>
    traj.getD (k * step) default
  match traj.getLast? with
  | some last => strided ++ [last]
  | none => strided

/-- A rendered track visual: geometry points, material state, hover/selection
bookkeeping (`userData.originalColor` / `originalOpacity`) and the stored
physics quantities the filters read. -/
structure TrackVisual where
  pid : Int
  ptype : String
  energy : Real
  pt : Real
  momentum : Real
  points : List RPoint
  thickness : Real
  color : Nat
  opacity : Real
  emissive : Nat
  originalColor : Nat
  originalOpacity : Real
  visible : Bool
  detailed : Bool
deriving Inhabited

/-- ParticleTracks.createDetailedTrack: full geometry, momentum-scaled
thickness, energy-based opacity `min(E/100, 1) * 0.7 + 0.3`. -/
noncomputable def createDetailedTrack (config : PConfig) (p : RParticle)
    (pt momentum : Real) : TrackVisual :=
  let momentumFactor := min (momentum / 50) 2
  let thickness := config.thickness * (0.5 + momentumFactor * 0.5)
  let energyAlpha := min (p.energy / 100) 1 * 0.7 + 0.3
  { pid := p.pid, ptype := p.ptype, energy := p.energy, pt := pt,
    momentum := momentum, points := p.trajectory, thickness := thickness,
    color := config.color, opacity := energyAlpha, emissive := 0,
    originalColor := config.color, originalOpacity := energyAlpha,
    visible := true, detailed := true }

/-- ParticleTracks.createSimplifiedTrack: down-sampled line geometry with a
fixed opacity of 0.8. -/
noncomputable def createSimplifiedTrack (config : PConfig) (p : RParticle)
    (pt momentum : Real) : TrackVisual :=
  { pid := p.pid, ptype := p.ptype, energy := p.energy, pt := pt,
    momentum := momentum, points := simplifyTrajectory p.trajectory,
    thickness := 2,
    color := config.color, opacity := 0.8, emissive := 0,
    originalColor := config.color, originalOpacity := 0.8,
    visible := true, detailed := false }

/-- ParticleTracks.createParticleTrack: skips particles with fewer than two
trajectory points (TrajectoryWarning), computes pt and momentum, and picks the
simplified geometry exactly when the whole batch is in simplified mode and the
trajectory has more than 10 points. -/
noncomputable def createParticleTrack (useSimplifiedRendering : Bool)
    (p : RParticle) : Option TrackVisual :=
  if p.trajectory.length < 2 then none
  else
    let config := particleConfig p.ptype
    let pt := Real.sqrt (p.px * p.px + p.py * p.py)
    let momentum := Real.sqrt (p.px * p.px + p.py * p.py + p.pz * p.pz)
    if useSimplifiedRendering = true ∧ 10 < p.trajectory.length then
      some (createSimplifiedTrack config p pt momentum)
    else
      some (createDetailedTrack config p pt momentum)

/-- The renderer state produced by one `loadTracks` call. -/
structure RenderState where
  useSimplifiedRendering : Bool
  trackObjects : List TrackVisual

/-- ParticleTracks.loadTracks: tears the previous batch down, decides
simplified mode once for the whole event by `particles.length > 500`
(`maxTracks`), and builds one visual per renderable particle. -/
noncomputable def loadTracks (particles : List RParticle) : RenderState :=
  let useSimplifiedRendering := decide (500 < particles.length)
  { useSimplifiedRendering := useSimplifiedRendering,
    trackObjects := particles.filterMap (createParticleTrack useSimplifiedRendering) }

/-- One entry of `animatedTracks`: the mesh scale and the staggered start
delay drawn from `Math.random() * 500`. -/
structure AnimTrack where
  scaleVal : Real
  delay : Real

/-- The animation controller state of ParticleTracks. -/
structure AnimState where
  isAnimating : Bool
  animationStartTime : Real
  animationProgress : Real
  animatedTracks : List AnimTrack

/-- The fixed animation duration (2000 ms). -/
def animationDuration : Real := 2000

/-- ParticleTracks.easeOutCubic. -/
def easeOutCubic (t : Real) : Real := 1 - (1 - t) ^ 3

/-- ParticleTracks.startAnimation: records the start timestamp, zeroes every
scale, resets the global progress and enters the running state.  (The source
early-returns when there are no animated tracks.) -/
def startAnimation (now : Real) (s : AnimState) : AnimState :=
  if s.animatedTracks.length = 0 then s
  else
    { isAnimating := true, animationStartTime := now, animationProgress := 0,
      animatedTracks := s.animatedTracks.map fun t => { t with scaleVal := 0 } }

/-- ParticleTracks.animateFrame at timestamp `now`: a no-op when not
animating; otherwise updates every track scale from its clamped per-track
progress, and when the global progress `min(elapsed / duration, 1)` has
reached 1 leaves the running state and emits the one-shot
`trackAnimationComplete` event (the returned Bool). -/
noncomputable def animateFrame (now : Real) (s : AnimState) : AnimState × Bool :=
  if s.isAnimating = false then (s, false)
  else
    let elapsed := now - s.animationStartTime
    let progress := min (elapsed / animationDuration) 1
    let tracks := s.animatedTracks.map fun t =>
      let adjustedProgress := max 0 ((elapsed - t.delay) / animationDuration)
      let scale := min adjustedProgress 1
      { t with scaleVal := easeOutCubic scale }
    if progress < 1 then
      ({ s with animationProgress := progress, animatedTracks := tracks }, false)
    else
      ({ s with
          animationProgress := progress
          animatedTracks := tracks
          isAnimating := false }, true)

/-- The local progress `clamp((now - startTime - delay) / duration, 0, 1)` of
one animated visual, as named by the specification. -/
noncomputable def localProgress (now startTime delay : Real) : Real :=
  min (max 0 ((now - startTime - delay) / animationDuration)) 1

/-- The hover/selection and visibility state of ParticleTracks. -/
structure PTState where
  trackObjects : List TrackVisual
  hoveredTrack : Option Int
  selectedTrack : Option Int

/-- ParticleTracks.resetTrackAppearance: restore the stored original color and
opacity and clear the emissive tint. -/
def resetTrackAppearance (v : TrackVisual) : TrackVisual :=
  { v with color := v.originalColor, opacity := v.originalOpacity, emissive := 0 }

/-- ParticleTracks.highlightTrack: selection forces white, full opacity and an
emissive tint; hover forces white and boosts opacity by 0.3 capped at 1
(leaving the emissive untouched). -/
noncomputable def highlightTrack (isSelected : Bool) (v : TrackVisual) : TrackVisual :=
  if isSelected then { v with color := 0xFFFFFF, opacity := 1, emissive := 0x333333 }
  else { v with color := 0xFFFFFF, opacity := min (v.originalOpacity + 0.3) 1 }

/-- In-place mutation of the one visual carrying the given particle id. -/
def updateVisual (pid : Int) (f : TrackVisual → TrackVisual)
    (vs : List TrackVisual) : List TrackVisual :=
  vs.map fun v => if v.pid = pid then f v else v

/-- ParticleTracks.handleMouseMove with the ray-cast already resolved to the
nearest hit (`hit = none` when the intersection list is empty): reverts the
previously hovered visual unless it is also selected, then records and
highlights the new hover, or clears the hover on a miss. -/
noncomputable def handleMouseMove (hit : Option Int) (s : PTState) : PTState :=
  let s1 :=
    match s.hoveredTrack with
    | some b =>
      if s.selectedTrack ≠ some b then
        { s with trackObjects := updateVisual b resetTrackAppearance s.trackObjects }
      else s
    | none => s
  match hit with
  | some t =>
    { s1 with
        hoveredTrack := some t
        trackObjects := updateVisual t (highlightTrack false) s1.trackObjects }
  | none => { s1 with hoveredTrack := none }

/-- ParticleTracks.handleClick with the ray-cast already resolved: reverts the
previous selection unconditionally, then records and select-highlights the new
hit, or clears the selection on a miss.  The hover state is never touched. -/
noncomputable def handleClick (hit : Option Int) (s : PTState) : PTState :=
  let s1 :=
    match s.selectedTrack with
    | some b =>
      { s with trackObjects := updateVisual b resetTrackAppearance s.trackObjects }
    | none => s
  match hit with
  | some t =>
    { s1 with
        selectedTrack := some t
        trackObjects := updateVisual t (highlightTrack true) s1.trackObjects }
  | none => { s1 with selectedTrack := none }

/-- ParticleTracks.clearTracks: disposes every visual and resets both the
hover and the selection to none. -/
def clearTracks (_s : PTState) : PTState :=
  { trackObjects := [], hoveredTrack := none, selectedTrack := none }

/-- ParticleTracks.filterByType: visibility is assigned (not ANDed) from the
type predicate; an empty type list means no restriction. -/
def filterByType (particleTypes : List String) (vs : List TrackVisual) :
    List TrackVisual :=
  vs.map fun v =>
    let isVisible := particleTypes.length = 0 ∨ v.ptype ∈ particleTypes
    { v with visible := decide isVisible }

/-- ParticleTracks.filterByEnergy: the energy-range result is ANDed onto the
current visibility (the `maxEnergy = Infinity` default is an arbitrary large
bound here; the claims quantify over it). -/
noncomputable def filterByEnergy (minEnergy maxEnergy : Real)
    (vs : List TrackVisual) : List TrackVisual :=
  vs.map fun v =>
    let isVisible := minEnergy ≤ v.energy ∧ v.energy ≤ maxEnergy
    { v with visible := v.visible && decide isVisible }

/-- ParticleTracks.filterByPt: the pt-range result is ANDed onto the current
visibility. -/
noncomputable def filterByPt (minPt maxPt : Real) (vs : List TrackVisual) :
    List TrackVisual :=
  vs.map fun v =>
    let isVisible := minPt ≤ v.pt ∧ v.pt ≤ maxPt
    { v with visible := v.visible && decide isVisible }

end ParticleTracks

section HelperLemmas

/-- Lookup through a spread-style key update. -/
theorem lookup_setKey (fs : List (String × JSVal)) (k k2 : String) (v : JSVal) :
    List.lookup k2 (JSVal.setKey fs k v) = if k2 = k then some v else List.lookup k2 fs := by
  induction fs with
  | nil =>
    by_cases h : k2 = k
    · simp [JSVal.setKey, List.lookup, h]
    · simp [JSVal.setKey, List.lookup, h, show (k2 == k) = false by simp [h]]
  | cons hd tl ih =>
    obtain ⟨k0, v0⟩ := hd
    by_cases h0 : k0 = k
    · subst h0
      by_cases h2 : k2 = k0
      · simp [JSVal.setKey, List.lookup, h2]
      · simp [JSVal.setKey, List.lookup, h2, show (k2 == k0) = false by simp [h2]]
    · by_cases h2 : k2 = k0
      · subst h2
        simp [JSVal.setKey, h0, List.lookup, Ne.symm h0]
      · simp [JSVal.setKey, h0, List.lookup, ih, show (k2 == k0) = false by simp [h2]]

/-- Updating a key to the value it already holds is the identity. -/
theorem setKey_self (fs : List (String × JSVal)) (k : String) (v : JSVal)
    (h : List.lookup k fs = some v) : JSVal.setKey fs k v = fs := by
  induction fs with
  | nil => simp [List.lookup] at h
  | cons hd tl ih =>
    obtain ⟨k0, v0⟩ := hd
    by_cases h0 : k0 = k
    · subst h0
      simp [List.lookup, beq_iff_eq] at h
      simp [JSVal.setKey, h]
    · have hne : ¬k = k0 := fun e => h0 (Eq.symm e)
      simp [List.lookup, show (k == k0) = false by simp [hne]] at h
      simp [JSVal.setKey, h0, ih h]

/-- Field access through a spread-style key update on an object. -/
theorem getField_obj_setKey (fs : List (String × JSVal)) (k k2 : String) (v : JSVal) :
    JSVal.getField (JSVal.obj (JSVal.setKey fs k v)) k2 =
      if k2 = k then v else JSVal.getField (JSVal.obj fs) k2 := by
  by_cases h : k2 = k <;> simp [JSVal.getField, lookup_setKey, h]

/-- Key presence through a spread-style key update on an object. -/
theorem objHas_obj_setKey (fs : List (String × JSVal)) (k k2 : String) (v : JSVal) :
    JSVal.objHas (JSVal.obj (JSVal.setKey fs k v)) k2 =
      (if k2 = k then true else JSVal.objHas (JSVal.obj fs) k2) := by
  by_cases h : k2 = k <;> simp [JSVal.objHas, lookup_setKey, h]

end HelperLemmas

section ClaimC1

/-- A concrete hidden electron track visual used to exhibit the widening
behaviour of `filterByType`. -/
def hiddenElectronVisual : TrackVisual :=
  { pid := 1, ptype := "electron", energy := 0, pt := 0, momentum := 0,
    points := [], thickness := 1, color := 0x00FF00, opacity := 1,
    emissive := 0, originalColor := 0x00FF00, originalOpacity := 1,
    visible := false, detailed := true }

/-- C1 counterexample: a single `filterByType` call turns a visual whose
visibility flag is `false` back to `true` (the source assigns
`trackObj.visible = isVisible` instead of ANDing), so filter application is
not narrowing-only. -/
theorem filterByType_widens_cex :
    hiddenElectronVisual.visible = false ∧
    (filterByType ["electron"] [hiddenElectronVisual]).map TrackVisual.visible =
      [true] := by
  constructor
  · rfl
  · simp [filterByType, hiddenElectronVisual]

/-- C1 amended: `filterByEnergy` and `filterByPt` AND their range result onto
the current visibility and therefore never turn an invisible visual visible,
but `filterByType` assigns the visibility flag directly from the type
predicate, independently of the current flag (so it can widen). -/
theorem filters_energy_pt_narrow (vs : List TrackVisual)
    (minEnergy maxEnergy minPt maxPt : Real) (particleTypes : List String)
    (i : Nat) (v : TrackVisual) (hv : vs[i]? = some v) :
    (∀ w, (filterByEnergy minEnergy maxEnergy vs)[i]? = some w →
      w.visible = true → v.visible = true) ∧
    (∀ w, (filterByPt minPt maxPt vs)[i]? = some w →
      w.visible = true → v.visible = true) ∧
    (∀ w, (filterByType particleTypes vs)[i]? = some w →
      w.visible = decide (particleTypes.length = 0 ∨ v.ptype ∈ particleTypes)) := by
  refine ⟨?_, ?_, ?_⟩
  · intro w hw hvis
    simp [filterByEnergy, List.getElem?_map, hv] at hw
    subst hw
    simpa using (Bool.and_eq_true _ _).mp hvis |>.1
  · intro w hw hvis
    simp [filterByPt, List.getElem?_map, hv] at hw
    subst hw
    simpa using (Bool.and_eq_true _ _).mp hvis |>.1
  · intro w hw
    simp [filterByType, List.getElem?_map, hv] at hw
    subst hw
    simp [Bool.decide_or, List.length_eq_zero]

/-- A visible zero-energy electron visual. -/
def visibleElectronVisual : TrackVisual :=
  { hiddenElectronVisual with visible := true }

/-- Witness instantiating the amended C1 theorem on a concrete list: the
energy filter kept the visible electron visible, which narrowing back-propagates
to the input flag. -/
theorem filters_energy_pt_narrow_witness : visibleElectronVisual.visible = true :=
  (filters_energy_pt_narrow [visibleElectronVisual] 0 10 0 10 ["electron"] 0
    visibleElectronVisual rfl).1
    { visibleElectronVisual with
        visible := visibleElectronVisual.visible &&
          decide ((0 : Real) ≤ visibleElectronVisual.energy ∧
            visibleElectronVisual.energy ≤ 10) }
    rfl
    (by norm_num [visibleElectronVisual, hiddenElectronVisual])

end ClaimC1

section ClaimC2

/-- A running animation state holding one visual whose staggered delay is
500 ms, started at timestamp 0. -/
def delayedAnimState : AnimState :=
  { isAnimating := true, animationStartTime := 0, animationProgress := 0,
    animatedTracks := [{ scaleVal := 0, delay := 500 }] }

/-- C2 counterexample: at timestamp 2000 the tick leaves the running state and
emits the completion event although the delayed visual's local progress is
only 3/4 — the source tests the global `min(elapsed / duration, 1)` rather
than the per-visual progress, so completion fires before the most-delayed
visual has finished. -/
theorem animation_completes_early_cex :
    (animateFrame 2000 delayedAnimState).2 = true ∧
    localProgress 2000 delayedAnimState.animationStartTime 500 = 3 / 4 := by
  constructor
  · have h1 : ¬(2000 : Real) / animationDuration < 1 := by
      norm_num [animationDuration]
    simp [animateFrame, delayedAnimState, h1]
  · norm_num [localProgress, delayedAnimState, animationDuration]

/-- C2 amended: a tick completes the animation (returning to the idle state
and emitting the one-shot completion event) exactly when the global elapsed
time has reached the 2000 ms duration — regardless of the per-visual delayed
local progress — and once the controller has left the running state every
further tick is a strict no-op until `startAnimation` runs again. -/
theorem animateFrame_complete_iff_elapsed (now : Real) (s : AnimState) :
    (s.isAnimating = true →
      ((animateFrame now s).2 = true ↔
        animationDuration ≤ now - s.animationStartTime)) ∧
    ((animateFrame now s).2 = true → (animateFrame now s).1.isAnimating = false) ∧
    (s.isAnimating = false → animateFrame now s = (s, false)) := by
  refine ⟨?_, ?_, ?_⟩
  · intro hrun
    have hd : (0 : Real) < animationDuration := by norm_num [animationDuration]
    by_cases hlt : (now - s.animationStartTime) / animationDuration < 1
    · have hlt2 : ¬animationDuration ≤ now - s.animationStartTime := by
        intro hge
        exact absurd ((le_div_iff₀ hd).mpr (by linarith)) (not_le.mpr hlt)
      simp [animateFrame, hrun, min_lt_iff, hlt, hlt2]
    · have hge : animationDuration ≤ now - s.animationStartTime := by
        have := (div_lt_one hd).not.mp hlt
        linarith [not_lt.mp this]
      have hmin : ¬min ((now - s.animationStartTime) / animationDuration) 1 < 1 := by
        simp [min_lt_iff, hlt]
      simp [animateFrame, hrun, hmin, hge]
  · intro hc
    by_cases hrun : s.isAnimating = true
    · by_cases hmin : min ((now - s.animationStartTime) / animationDuration) 1 < 1
      · simp [animateFrame, hrun, hmin] at hc
      · simp [animateFrame, hrun, hmin]
    · simp [Bool.not_eq_true] at hrun
      simp [animateFrame, hrun] at hc
  · intro hidle
    simp [animateFrame, hidle]

/-- Witness instantiating the amended C2 theorem: with no staggered delay
pending, a tick at 2500 ms past the start completes the animation. -/
theorem animateFrame_complete_iff_elapsed_witness :
    (animateFrame 2500 delayedAnimState).2 = true :=
  ((animateFrame_complete_iff_elapsed 2500 delayedAnimState).1 rfl).mpr
    (by norm_num [delayedAnimState, animationDuration])

end ClaimC2

section ClaimC4

/-- Characterization of the `createSimplifiedTrack` down-sampling loop for
trajectories over the 10-point threshold: stride `step = length / 8`, the
output keeps the points at indices `0, step, 2·step, ...` and then appends the
final point, for a total of `(length - 1) / step + 2` points. -/
theorem simplifyTrajectory_spec {α : Type} [Inhabited α] (traj : List α)
    (h10 : 10 < traj.length) :
    (simplifyTrajectory traj).length = (traj.length - 1) / (traj.length / 8) + 2 ∧
    (simplifyTrajectory traj).getLast? = traj.getLast? ∧
    ∀ k, k ≤ (traj.length - 1) / (traj.length / 8) →
      (simplifyTrajectory traj)[k]? = traj[k * (traj.length / 8)]? := by
  have hlen1 : 1 ≤ traj.length := by omega
  have hstep1 : 1 ≤ traj.length / 8 := (Nat.one_le_div_iff (by norm_num)).mpr (by omega)
  have hmax : max 1 (traj.length / 8) = traj.length / 8 := max_eq_right hstep1
  have hne : traj ≠ [] := by
    intro e
    rw [e] at h10
    simp at h10
  obtain ⟨last, hlast⟩ := Option.isSome_iff_exists.mp (List.getLast?_isSome.mpr hne)
  have hcount : (traj.length + traj.length / 8 - 1) / (traj.length / 8) =
      (traj.length - 1) / (traj.length / 8) + 1 := by
    have he : traj.length + traj.length / 8 - 1 = (traj.length - 1) + traj.length / 8 := by
      omega
    rw [he, Nat.add_div_right _ (by omega)]
  have hform : simplifyTrajectory traj =
      ((List.range ((traj.length - 1) / (traj.length / 8) + 1)).map fun k =>
        traj.getD (k * (traj.length / 8)) default) ++ [last] := by
    simp only [simplifyTrajectory, hmax, hcount, hlast]
  have hinb : ∀ k, k ≤ (traj.length - 1) / (traj.length / 8) →
      k * (traj.length / 8) < traj.length := by
    intro k hk
    have h1 : k * (traj.length / 8) ≤
        ((traj.length - 1) / (traj.length / 8)) * (traj.length / 8) :=
      Nat.mul_le_mul_right _ hk
    have h2 : ((traj.length - 1) / (traj.length / 8)) * (traj.length / 8) ≤
        traj.length - 1 := Nat.div_mul_le_self _ _
    omega
  refine ⟨?_, ?_, ?_⟩
  · rw [hform]
    simp
  · rw [hform, hlast]
    rw [List.getLast?_concat]
  · intro k hk
    have hklt : k < ((List.range ((traj.length - 1) / (traj.length / 8) + 1)).map fun k =>
        traj.getD (k * (traj.length / 8)) default).length := by
      simp
      omega
    rw [hform, List.getElem?_append, if_pos hklt]
    have hkr : k < (traj.length - 1) / (traj.length / 8) + 1 := by omega
    simp [List.getElem?_map, List.getElem?_range, hkr]
    rw [List.getElem?_eq_getElem (hinb k hk)]
    simp

/-- A particle with an 11-point straight trajectory, used to exhibit the
down-sampling count. -/
def elevenPointParticle : RParticle :=
  { pid := 0, ptype := "muon", px := 1, py := 0, pz := 0, energy := 1,
    trajectory := (List.range 11).map fun i => { x := (i : Real), y := 0, z := 0 } }

set_option maxRecDepth 4000 in
/-- C4 counterexample: with 501 particles the batch is in simplified mode, yet
the visual built for an 11-point trajectory keeps 12 points (stride
`max(1, floor(11/8)) = 1` keeps all 11 points and then appends the final point
again), exceeding the claimed cap of 8 interior points plus the final point. -/
theorem simplified_downsample_cex :
    (loadTracks (List.replicate 501 elevenPointParticle)).useSimplifiedRendering = true ∧
    (createParticleTrack true elevenPointParticle).map (fun v => v.points.length) =
      some 12 := by
  constructor
  · show decide (500 < (List.replicate 501 elevenPointParticle).length) = true
    rw [List.length_replicate]
    decide
  · rfl

/-- C4 amended: the rendering-mode decision is made once per event
(`particles.length > 500` selects simplified mode for the whole batch, at most
500 does not); within simplified mode a particle whose trajectory has more
than 10 points is down-sampled with the uniform stride `floor(length / 8)` to
the points at indices `0, step, 2·step, ...` plus its appended final point —
`(length - 1) / step + 2` points in total (which can reach 16 for an 11..15
point trajectory, not the claimed 8 interior points plus final) — and the
trajectory's final point is never dropped. -/
theorem rendering_mode_and_downsample_amended {α : Type} [Inhabited α]
    (ps : List RParticle) (p : RParticle) (traj : List α) :
    ((loadTracks ps).useSimplifiedRendering = true ↔ 500 < ps.length) ∧
    (∀ w, (createParticleTrack true p).map (fun v => v.points) = some w →
      10 < p.trajectory.length → w = simplifyTrajectory p.trajectory) ∧
    (10 < traj.length →
      (simplifyTrajectory traj).length = (traj.length - 1) / (traj.length / 8) + 2 ∧
      (simplifyTrajectory traj).getLast? = traj.getLast? ∧
      ∀ k, k ≤ (traj.length - 1) / (traj.length / 8) →
        (simplifyTrajectory traj)[k]? = traj[k * (traj.length / 8)]?) := by
  refine ⟨?_, ?_, fun h => simplifyTrajectory_spec traj h⟩
  · simp [loadTracks]
  · intro w hw h10
    have h2 : ¬p.trajectory.length < 2 := by omega
    simp [createParticleTrack, h2, h10, createSimplifiedTrack] at hw
    exact hw.symm

/-- Witness instantiating the amended C4 theorem: a 17-point trajectory in
simplified mode is down-sampled to 10 points (stride 2), keeping its final
point. -/
theorem rendering_mode_and_downsample_amended_witness :
    (simplifyTrajectory (List.range 17)).length = (17 - 1) / (17 / 8) + 2 ∧
    (simplifyTrajectory (List.range 17)).getLast? = (List.range 17).getLast? := by
  have h := (rendering_mode_and_downsample_amended (α := Nat) []
    elevenPointParticle (List.range 17)).2.2 (by simp)
  exact ⟨by simpa using h.1, by simpa using h.2.1⟩

end ClaimC4

section ClaimC9

/-- A renderable particle with negative energy (validation does not require
the energy to be nonnegative). -/
def negativeEnergyParticle : RParticle :=
  { pid := 2, ptype := "muon", px := 0, py := 0, pz := 0, energy := -100,
    trajectory := [{ x := 0, y := 0, z := 0 }, { x := 1, y := 0, z := 0 }] }

/-- C9 counterexample: a simplified-mode down-sampled track receives the fixed
opacity 0.8 instead of the energy formula (0.307 for energy 1), and a detailed
track with negative energy gets formula opacity below 0.3 — so neither does
every rendered visual follow the formula, nor is opacity never below 0.3. -/
theorem opacity_formula_cex :
    (createParticleTrack true elevenPointParticle).map (fun v => v.opacity) =
      some 0.8 ∧
    ¬(0.8 : Real) = min (elevenPointParticle.energy / 100) 1 * 0.7 + 0.3 ∧
    (createParticleTrack false negativeEnergyParticle).map (fun v => v.opacity) =
      some (min ((-100 : Real) / 100) 1 * 0.7 + 0.3) ∧
    min ((-100 : Real) / 100) 1 * 0.7 + 0.3 < 0.3 := by
  have hmin : min ((-100 : Real) / 100) 1 = -1 := by
    rw [show ((-100 : Real) / 100) = -1 by norm_num]
    exact min_eq_left (by norm_num)
  refine ⟨rfl, ?_, rfl, ?_⟩
  · show ¬(0.8 : Real) = min ((1 : Real) / 100) 1 * 0.7 + 0.3
    rw [min_eq_left (by norm_num)]
    norm_num
  · rw [hmin]
    norm_num

/-- C9 amended: a visual built by the detailed path (every particle outside
the simplified-mode, over-10-point case) has material opacity
`min(E/100, 1) * 0.7 + 0.3`, which lies in `[0.3, 1]` whenever the energy is
nonnegative; a visual built by the simplified down-sampling path has the fixed
opacity 0.8. -/
theorem opacity_amended (simplified : Bool) (p : RParticle) :
    (∀ o, (createParticleTrack simplified p).map (fun v => v.opacity) = some o →
      ¬(simplified = true ∧ 10 < p.trajectory.length) →
        o = min (p.energy / 100) 1 * 0.7 + 0.3 ∧
        (0 ≤ p.energy → 0.3 ≤ o ∧ o ≤ 1)) ∧
    (∀ o, (createParticleTrack simplified p).map (fun v => v.opacity) = some o →
      simplified = true ∧ 10 < p.trajectory.length → o = 0.8) := by
  constructor
  · intro o ho hnot
    by_cases h2 : p.trajectory.length < 2
    · simp [createParticleTrack, h2] at ho
    · simp [createParticleTrack, h2, hnot, createDetailedTrack] at ho
      refine ⟨ho.symm, fun hE => ?_⟩
      subst ho
      have hm0 : (0 : Real) ≤ min (p.energy / 100) 1 :=
        le_min (div_nonneg hE (by norm_num)) zero_le_one
      have hm1 : min (p.energy / 100) 1 ≤ 1 := min_le_right _ _
      constructor <;> nlinarith
  · intro o ho hsimp
    have h2 : ¬p.trajectory.length < 2 := by omega
    simp [createParticleTrack, h2, hsimp, createSimplifiedTrack] at ho
    exact ho.symm

/-- Witness instantiating the amended C9 theorem on the end-to-end example of
the specification: an electron of energy 52.1 with a 3-point trajectory. -/
theorem opacity_amended_witness :
    0.3 ≤ min ((52.1 : Real) / 100) 1 * 0.7 + 0.3 ∧
    min ((52.1 : Real) / 100) 1 * 0.7 + 0.3 ≤ 1 :=
  (((opacity_amended false
      { pid := 3, ptype := "electron", px := 25.3, py := -8.5, pz := 45.2,
        energy := 52.1,
        trajectory := [{ x := 0, y := 0, z := 0 }, { x := 1, y := 0, z := 1 },
          { x := 2, y := 0, z := 2 }] }).1
    (min ((52.1 : Real) / 100) 1 * 0.7 + 0.3) rfl (by simp)).2 (by norm_num))

end ClaimC9

section ClaimC8

/-- Index-wise description of the one-id in-place update. -/
theorem updateVisual_getElem (pid : Int) (f : TrackVisual → TrackVisual)
    (vs : List TrackVisual) (i : Nat) (v : TrackVisual) (hv : vs[i]? = some v) :
    (updateVisual pid f vs)[i]? = some (if v.pid = pid then f v else v) := by
  simp [updateVisual, List.getElem?_map, hv]

/-- Select-highlighting wipes every field the appearance reset touches, so the
two commute into a single select-highlight. -/
theorem highlightTrack_reset (v : TrackVisual) :
    highlightTrack true (resetTrackAppearance v) = highlightTrack true v := rfl

/-- C8: hover and selection are independent single-element states (each is one
optional reference in the model, so at most one of each exists at any time): a
click never touches the hover state; pointer moves never touch the selection;
after a click on track A while track B (neither A nor the previous selection)
is hovered, B's visual is bit-for-bit untouched (its hover highlight persists)
while A's visual carries the selection highlight; moving the pointer off B
reverts exactly B and nothing else; and `clearTracks` resets both states to
none. -/
theorem hover_selection_independent (s : PTState) (a b : Int) (hit : Option Int) :
    ((handleClick hit s).hoveredTrack = s.hoveredTrack) ∧
    ((handleMouseMove hit s).selectedTrack = s.selectedTrack) ∧
    ((clearTracks s).hoveredTrack = none ∧ (clearTracks s).selectedTrack = none ∧
      (clearTracks s).trackObjects = []) ∧
    (s.hoveredTrack = some b → s.selectedTrack ≠ some b →
      (handleMouseMove none s).hoveredTrack = none ∧
      ∀ (i : Nat) (v : TrackVisual), s.trackObjects[i]? = some v →
        (handleMouseMove none s).trackObjects[i]? =
          some (if v.pid = b then resetTrackAppearance v else v)) ∧
    (s.hoveredTrack = some b → s.selectedTrack ≠ some b → b ≠ a →
      ∀ (i : Nat) (v : TrackVisual), s.trackObjects[i]? = some v →
        (v.pid = b → (handleClick (some a) s).trackObjects[i]? = some v) ∧
        (v.pid = a → (handleClick (some a) s).trackObjects[i]? =
          some (highlightTrack true v))) := by
  refine ⟨?_, ?_, ⟨rfl, rfl, rfl⟩, ?_, ?_⟩
  · cases hse : s.selectedTrack <;> cases hit <;> simp [handleClick, hse]
  · cases hh : s.hoveredTrack with
    | none => cases hit <;> simp [handleMouseMove, hh]
    | some c =>
      by_cases hsel : s.selectedTrack ≠ some c <;>
        cases hit <;> simp [handleMouseMove, hh, hsel]
  · intro hb hnsel
    constructor
    · simp [handleMouseMove, hb, hnsel]
    · intro i v hv
      simp only [handleMouseMove, hb, hnsel, ne_eq, not_false_iff, if_true]
      exact updateVisual_getElem b resetTrackAppearance s.trackObjects i v hv
  · intro hb hnsel hba i v hv
    constructor
    · intro hvb
      cases hse : s.selectedTrack with
      | none =>
        simp only [handleClick, hse]
        have h0 := updateVisual_getElem a (highlightTrack true) s.trackObjects i v hv
        rw [h0, hvb, if_neg hba]
      | some c =>
        have hcb : c ≠ b := by
          intro e
          exact hnsel (by rw [hse, e])
        simp only [handleClick, hse]
        have h1 := updateVisual_getElem c resetTrackAppearance s.trackObjects i v hv
        rw [hvb] at h1
        rw [if_neg (Ne.symm hcb)] at h1
        have h2 := updateVisual_getElem a (highlightTrack true)
          (updateVisual c resetTrackAppearance s.trackObjects) i v h1
        rw [h2, hvb, if_neg hba]
    · intro hva
      cases hse : s.selectedTrack with
      | none =>
        simp only [handleClick, hse]
        have h0 := updateVisual_getElem a (highlightTrack true) s.trackObjects i v hv
        rw [h0, hva, if_pos rfl]
      | some c =>
        simp only [handleClick, hse]
        by_cases hca : c = a
        · subst hca
          have h1 := updateVisual_getElem c resetTrackAppearance s.trackObjects i v hv
          rw [hva, if_pos rfl] at h1
          have h2 := updateVisual_getElem c (highlightTrack true)
            (updateVisual c resetTrackAppearance s.trackObjects) i
            (resetTrackAppearance v) h1
          rw [h2, if_pos (show (resetTrackAppearance v).pid = c from hva),
            highlightTrack_reset]
        · have h1 := updateVisual_getElem c resetTrackAppearance s.trackObjects i v hv
          rw [hva, if_neg (Ne.symm hca)] at h1
          have h2 := updateVisual_getElem a (highlightTrack true)
            (updateVisual c resetTrackAppearance s.trackObjects) i v h1
          rw [h2, hva, if_pos rfl]

/-- A two-track interaction state: track 2 hovered, nothing selected. -/
def twoTrackState : PTState :=
  { trackObjects :=
      [{ hiddenElectronVisual with pid := 1, visible := true },
       { hiddenElectronVisual with pid := 2, visible := true }],
    hoveredTrack := some 2, selectedTrack := none }

/-- Witness instantiating the C8 theorem: clicking track 1 while track 2 is
hovered keeps track 2 hovered and untouched. -/
theorem hover_selection_independent_witness :
    (handleClick (some 1) twoTrackState).hoveredTrack = some 2 ∧
    (handleClick (some 1) twoTrackState).trackObjects[1]? =
      some { hiddenElectronVisual with pid := 2, visible := true } := by
  have h := hover_selection_independent twoTrackState 1 2 (some 1)
  refine ⟨h.1, ?_⟩
  have h5 := (h.2.2.2.2 rfl (by simp [twoTrackState]) (by decide) 1
    { hiddenElectronVisual with pid := 2, visible := true } rfl).1 rfl
  exact h5

end ClaimC8

section ValidateParticleElim

open JSVal

/-- Key presence forces the value to be a plain object. -/
theorem objHas_true_obj (p : JSVal) (k : String) (h : objHas p k = true) :
    ∃ fs, p = JSVal.obj fs := by
  cases p <;> simp [objHas] at h ⊢

/-- Anatomy of a successful `validateParticle` run: the input is a plain
object, the output is its spread with the validated (or synthesized)
trajectory and the derived kinematics, every other field is carried over
unchanged, a falsy trajectory field is replaced by the synthesized straight
line, and a present trajectory array is validated pointwise. -/
theorem validateParticle_ok_elim (p q : JSVal) (h : validateParticle p = Except.ok q) :
    ∃ fs traj, p = JSVal.obj fs ∧
      q = JSVal.obj (setKey (setKey fs "trajectory" (arr traj)) "derived"
        (derivedObj (asNum (getField p "px")) (asNum (getField p "py"))
          (asNum (getField p "pz")))) ∧
      getField q "trajectory" = arr traj ∧
      getField q "derived" = derivedObj (asNum (getField p "px"))
        (asNum (getField p "py")) (asNum (getField p "pz")) ∧
      (∀ k, k ≠ "trajectory" → k ≠ "derived" → getField q k = getField p k) ∧
      (jsTruthy (getField p "trajectory") = false →
        traj = generateSimpleTrajectory (asNum (getField p "px"))
          (asNum (getField p "py")) (asNum (getField p "pz"))) ∧
      (∀ pts, getField p "trajectory" = arr pts → validatePoints pts = Except.ok traj) ∧
      (jsTruthy (getField p "trajectory") = true →
        ∃ pts, getField p "trajectory" = arr pts) ∧
      requiredParticleFields.all (objHas p) = true ∧
      numericParticleFields.all (fun f => isFiniteNum (getField p f)) = true := by
  simp only [validateParticle] at h
  split at h
  · exact absurd h (by simp)
  next h1 =>
    split at h
    · exact absurd h (by simp)
    next h2 =>
      split at h
      · exact absurd h (by simp)
      next h3 =>
        have hall : requiredParticleFields.all (objHas p) = true := by
          simpa using not_not.mp h2
        have hnum : numericParticleFields.all (fun f => isFiniteNum (getField p f)) = true := by
          simpa using not_not.mp h3
        have hid : objHas p "id" = true := by
          simp [requiredParticleFields] at hall
          exact hall.1
        obtain ⟨fs, hfs⟩ := objHas_true_obj p "id" hid
        have hfields : fieldsOf p = fs := by rw [hfs]; rfl
        split at h
        next htruthy =>
          split at h
          next pts hpts =>
            split at h
            next tps htps =>
              refine ⟨fs, tps, hfs, ?_⟩
              have hq : q = JSVal.obj (setKey (setKey fs "trajectory" (arr tps)) "derived"
                  (derivedObj (asNum (getField p "px")) (asNum (getField p "py"))
                    (asNum (getField p "pz")))) := by
                rw [hfields] at h
                exact (Except.ok.injEq _ _).mp h |>.symm
              refine ⟨hq, ?_, ?_, ?_, ?_, ?_, fun _ => ⟨pts, hpts⟩, hall, hnum⟩
              · rw [hq, getField_obj_setKey]
                rw [if_neg (by decide), getField_obj_setKey, if_pos rfl]
              · rw [hq, getField_obj_setKey, if_pos rfl]
              · intro k hk1 hk2
                rw [hq, getField_obj_setKey, if_neg hk2, getField_obj_setKey, if_neg hk1,
                  hfs]
              · intro hfalsy
                rw [hpts] at htruthy
                rw [hpts] at hfalsy
                rw [htruthy] at hfalsy
                exact absurd hfalsy (by simp)
              · intro pts2 hpts2
                rw [hpts] at hpts2
                have : pts2 = pts := by
                  injection hpts2.symm
                rw [this, htps]
            · exact absurd h (by simp)
          next hnotarr =>
            exact absurd h (by simp)
        next hfalsy =>
          have hfalsy2 : jsTruthy (getField p "trajectory") = false := by
            simpa using hfalsy
          refine ⟨fs, generateSimpleTrajectory (asNum (getField p "px"))
            (asNum (getField p "py")) (asNum (getField p "pz")), hfs, ?_⟩
          have hq : q = JSVal.obj (setKey (setKey fs "trajectory"
              (arr (generateSimpleTrajectory (asNum (getField p "px"))
                (asNum (getField p "py")) (asNum (getField p "pz"))))) "derived"
              (derivedObj (asNum (getField p "px")) (asNum (getField p "py"))
                (asNum (getField p "pz")))) := by
            rw [hfields] at h
            exact (Except.ok.injEq _ _).mp h |>.symm
          refine ⟨hq, ?_, ?_, ?_, fun _ => rfl, ?_,
            fun ht => absurd (hfalsy2 ▸ ht) (by simp), hall, hnum⟩
          · rw [hq, getField_obj_setKey]
            rw [if_neg (by decide), getField_obj_setKey, if_pos rfl]
          · rw [hq, getField_obj_setKey, if_pos rfl]
          · intro k hk1 hk2
            rw [hq, getField_obj_setKey, if_neg hk2, getField_obj_setKey, if_neg hk1, hfs]
          · intro pts2 hpts2
            rw [hpts2] at hfalsy2
            exact absurd hfalsy2 (by simp [jsTruthy])

end ValidateParticleElim

section ValidateEventElim

open JSVal

/-- Anatomy of a successful `validateParticles` run: lengths agree and the
output particles are the per-index `validateParticle` images. -/
theorem validateParticles_ok_elim (ps vps : List JSVal)
    (h : validateParticles ps = Except.ok vps) :
    vps.length = ps.length ∧
    ∀ i : Nat, ∀ q, vps[i]? = some q →
      ∃ p, ps[i]? = some p ∧ validateParticle p = Except.ok q := by
  induction ps generalizing vps with
  | nil =>
    simp only [validateParticles] at h
    have : vps = [] := by
      injection h.symm
    subst this
    exact ⟨rfl, by intro i q hq; simp at hq⟩
  | cons p rest ih =>
    simp only [validateParticles] at h
    cases hv : validateParticle p with
    | error e => rw [hv] at h; exact absurd h (by simp [Bind.bind, Except.bind])
    | ok q0 =>
      rw [hv] at h
      cases hr : validateParticles rest with
      | error e => rw [hr] at h; exact absurd h (by simp [Bind.bind, Except.bind])
      | ok qs =>
        rw [hr] at h
        have hvps : vps = q0 :: qs := by
          simp [Bind.bind, Except.bind, pure, Except.pure] at h
          exact h.symm
        subst hvps
        obtain ⟨hlen, hidx⟩ := ih qs hr
        refine ⟨by simp [hlen], ?_⟩
        intro i q hq
        cases i with
        | zero =>
          simp at hq
          exact ⟨p, by simp, hq ▸ hv⟩
        | succ j =>
          simp at hq
          obtain ⟨p2, hp2, hval⟩ := hidx j q (by simpa using hq)
          exact ⟨p2, by simpa using hp2, hval⟩

/-- Anatomy of a successful `validateEvent` run: the raw event is a plain
object whose checks passed, the particles array was validated element-wise,
and the output is the spread of the raw event with the validated particles and
the refreshed metadata; every other field is carried over unchanged. -/
theorem validateEvent_ok_elim (now : String) (ev v : JSVal)
    (h : validateEvent now ev = Except.ok v) :
    ∃ efs ps vps md, ev = JSVal.obj efs ∧
      getField ev "particles" = arr ps ∧
      validateParticles ps = Except.ok vps ∧
      v = JSVal.obj (setKey (setKey efs "particles" (arr vps)) "metadata" md) ∧
      getField v "particles" = arr vps ∧
      (∀ k, k ≠ "particles" → k ≠ "metadata" → getField v k = getField ev k) ∧
      requiredEventFields.all (objHas ev) = true ∧
      jsTruthy (getField ev "vertex") = true ∧
      jsTypeof (getField ev "vertex") = "object" ∧
      isNumTypeof (getField (getField ev "vertex") "x") = true ∧
      isNumTypeof (getField (getField ev "vertex") "y") = true ∧
      isNumTypeof (getField (getField ev "vertex") "z") = true := by
  simp only [validateEvent] at h
  split at h
  · exact absurd h (by simp)
  next h1 =>
    split at h
    · exact absurd h (by simp)
    next h2 =>
      split at h
      · exact absurd h (by simp)
      next h3 =>
        split at h
        · exact absurd h (by simp)
        next h4 =>
          have hall : requiredEventFields.all (objHas ev) = true := by
            simpa using not_not.mp h2
          have hvx : jsTruthy (getField ev "vertex") = true ∧
              jsTypeof (getField ev "vertex") = "object" := not_not.mp h3
          have hnums := not_not.mp h4
          have hid : objHas ev "event_id" = true := by
            simp [requiredEventFields] at hall
            exact hall.1
          obtain ⟨efs, hefs⟩ := objHas_true_obj ev "event_id" hid
          have hfields : fieldsOf ev = efs := by rw [hefs]; rfl
          split at h
          next ps hps =>
            split at h
            next vps hvps =>
              have hv : v = JSVal.obj (setKey (setKey efs "particles" (arr vps)) "metadata"
                  (JSVal.obj (List.foldl (fun fs kv => setKey fs kv.1 kv.2)
                    (fieldsOf (getField ev "metadata"))
                    [("particle_count", num vps.length), ("validated_at", str now)]))) := by
                rw [hfields] at h
                exact (Except.ok.injEq _ _).mp h |>.symm
              refine ⟨efs, ps, vps, _, hefs, hps, hvps, hv, ?_, ?_, hall,
                hvx.1, hvx.2, hnums.1, hnums.2.1, hnums.2.2⟩
              · rw [hv, getField_obj_setKey, if_neg (by decide), getField_obj_setKey,
                  if_pos rfl]
              · intro k hk1 hk2
                rw [hv, getField_obj_setKey, if_neg hk2, getField_obj_setKey, if_neg hk1,
                  hefs]
            · exact absurd h (by simp)
          next hnotarr =>
            exact absurd h (by simp)

end ValidateEventElim

section ClaimC10

open JSVal

/-- C10: a successful validation keeps the particle sequence aligned — same
length and order — and the validated particle at each index carries every
field of the raw particle other than `trajectory` and `derived` (hence `id`,
`type`, `px`, `py`, `pz`, `E` and `charge`) with an unchanged value; only
`trajectory` and `derived` are added or replaced. -/
theorem validateEvent_preserves_particles (now : String) (ev v : JSVal)
    (ps vps : List JSVal) (hok : validateEvent now ev = Except.ok v)
    (hps : getField ev "particles" = arr ps)
    (hvps : getField v "particles" = arr vps) :
    vps.length = ps.length ∧
    ∀ i : Nat, ∀ q, vps[i]? = some q →
      ∃ p, ps[i]? = some p ∧
        ∀ k, k ≠ "trajectory" → k ≠ "derived" → getField q k = getField p k := by
  obtain ⟨efs, ps2, vps2, md, hefs, hps2, hvalps, hv, hvps2, hframe, hrest⟩ :=
    validateEvent_ok_elim now ev v hok
  have hps0 : ps2 = ps := by
    rw [hps] at hps2
    injection hps2 with e
    exact e.symm
  have hvps0 : vps2 = vps := by
    rw [hvps] at hvps2
    injection hvps2 with e
    exact e.symm
  rw [hps0, hvps0] at hvalps
  obtain ⟨hlen, hidx⟩ := validateParticles_ok_elim ps vps hvalps
  refine ⟨hlen, ?_⟩
  intro i q hq
  obtain ⟨p, hp, hval⟩ := hidx i q hq
  obtain ⟨fs, traj, hpfs, hqv, htrajv, hderv, hfr, hrest2⟩ :=
    validateParticle_ok_elim p q hval
  exact ⟨p, hp, hfr⟩

/-- A concrete one-particle event (momentum and energy all zero, a present
charge field, no trajectory). -/
def chargedRawEvent : JSVal :=
  JSVal.obj [("event_id", JSVal.str "evt-1"),
    ("vertex", JSVal.pointObj (JSVal.num 0) (JSVal.num 0) (JSVal.num 0)),
    ("particles", JSVal.arr [JSVal.obj [("id", JSVal.num 7), ("type", JSVal.str "muon"),
      ("px", JSVal.num 0), ("py", JSVal.num 0), ("pz", JSVal.num 0),
      ("E", JSVal.num 0), ("charge", JSVal.num (-1))]])]

/-- Witness instantiating C10 on a concrete event: validation succeeds and the
single validated particle still carries `charge = -1`. -/
theorem validateEvent_preserves_particles_witness :
    ∃ v vps, validateEvent "t0" chargedRawEvent = Except.ok v ∧
      JSVal.getField v "particles" = JSVal.arr vps ∧
      ∃ q, vps[0]? = some q ∧
        JSVal.getField q "charge" = JSVal.num (-1) := by
  cases hok : validateEvent "t0" chargedRawEvent with
  | error e =>
    exfalso
    revert hok
    simp [validateEvent, chargedRawEvent, JSVal.jsTruthy, JSVal.jsTypeof,
      requiredEventFields, JSVal.objHas, List.lookup, JSVal.getField,
      JSVal.pointObj, JSVal.isNumTypeof, validateParticles, validateParticle,
      requiredParticleFields, numericParticleFields, JSVal.isFiniteNum,
      Bind.bind, Except.bind, pure, Except.pure]
  | ok v =>
    obtain ⟨efs, ps, vps, md, hefs, hps, hvalps, hv, hvps, hframe, hrest⟩ :=
      validateEvent_ok_elim "t0" chargedRawEvent v hok
    refine ⟨v, vps, rfl, hvps, ?_⟩
    obtain ⟨hlen, hidx⟩ := validateEvent_preserves_particles "t0" chargedRawEvent v
      ps vps hok hps hvps
    have hps1 : ps = [JSVal.obj [("id", JSVal.num 7), ("type", JSVal.str "muon"),
        ("px", JSVal.num 0), ("py", JSVal.num 0), ("pz", JSVal.num 0),
        ("E", JSVal.num 0), ("charge", JSVal.num (-1))]] := by
      have : JSVal.getField chargedRawEvent "particles" =
          JSVal.arr [JSVal.obj [("id", JSVal.num 7), ("type", JSVal.str "muon"),
          ("px", JSVal.num 0), ("py", JSVal.num 0), ("pz", JSVal.num 0),
          ("E", JSVal.num 0), ("charge", JSVal.num (-1))]] := by
        simp [chargedRawEvent, JSVal.getField, List.lookup]
      rw [hps] at this
      injection this
    have hlen1 : vps.length = 1 := by rw [hlen, hps1]; rfl
    obtain ⟨q, hq⟩ : ∃ q, vps[0]? = some q := by
      cases hvq : vps[0]? with
      | none => rw [List.getElem?_eq_none_iff] at hvq; omega
      | some q => exact ⟨q, rfl⟩
    obtain ⟨p, hp, hfr⟩ := hidx 0 q hq
    refine ⟨q, hq, ?_⟩
    rw [hfr "charge" (by decide) (by decide)]
    rw [hps1] at hp
    simp at hp
    rw [← hp]
    simp [JSVal.getField, List.lookup]
end ClaimC10

section ClaimC3

open JSVal

/-- Pointwise validation preserves the number of trajectory points. -/
theorem validatePoints_ok_length (pts tps : List JSVal)
    (h : validatePoints pts = Except.ok tps) : tps.length = pts.length := by
  induction pts generalizing tps with
  | nil =>
    simp only [validatePoints] at h
    have : tps = [] := by injection h.symm
    simp [this]
  | cons p rest ih =>
    simp only [validatePoints] at h
    cases hv : validatePoint p with
    | error e => rw [hv] at h; exact absurd h (by simp [Bind.bind, Except.bind])
    | ok q =>
      rw [hv] at h
      cases hr : validatePoints rest with
      | error e => rw [hr] at h; exact absurd h (by simp [Bind.bind, Except.bind])
      | ok qs =>
        rw [hr] at h
        have : tps = q :: qs := by
          simp [Bind.bind, Except.bind, pure, Except.pure] at h
          exact h.symm
        subst this
        simp [ih qs hr]

/-- Shape of the synthesized trajectory: a single zero point for zero
momentum, else exactly 6 points at parameter `i` along the (unit-norm)
normalized momentum direction, so the line starts at the origin and its last
point sits at distance 5.0. -/
theorem generateSimpleTrajectory_spec (px py pz : Real) :
    (Real.sqrt (px * px + py * py + pz * pz) = 0 →
      generateSimpleTrajectory px py pz =
        [pointObj (num 0) (num 0) (num 0)]) ∧
    (Real.sqrt (px * px + py * py + pz * pz) ≠ 0 →
      (generateSimpleTrajectory px py pz).length = 6 ∧
      (∀ i : Nat, i < 6 →
        (generateSimpleTrajectory px py pz)[i]? = some (pointObj
          (num ((i : Real) * (px / Real.sqrt (px * px + py * py + pz * pz))))
          (num ((i : Real) * (py / Real.sqrt (px * px + py * py + pz * pz))))
          (num ((i : Real) * (pz / Real.sqrt (px * px + py * py + pz * pz)))))) ∧
      (px / Real.sqrt (px * px + py * py + pz * pz)) ^ 2 +
        (py / Real.sqrt (px * px + py * py + pz * pz)) ^ 2 +
        (pz / Real.sqrt (px * px + py * py + pz * pz)) ^ 2 = 1) := by
  constructor
  · intro hm
    simp only [generateSimpleTrajectory]
    rw [if_pos hm]
  · intro hm
    refine ⟨?_, ?_, ?_⟩
    · simp only [generateSimpleTrajectory]
      rw [if_neg hm]
      simp
    · intro i hi
      simp only [generateSimpleTrajectory]
      rw [if_neg hm]
      rw [List.getElem?_map]
      rw [List.getElem?_range hi]
      have h55 : ((i : Real) / (6 - 1)) * 5.0 = (i : Real) := by
        norm_num
      simp only [Option.map_some']
      rw [h55]
    · have hs : (0 : Real) ≤ px * px + py * py + pz * pz := by
        nlinarith [mul_self_nonneg px, mul_self_nonneg py, mul_self_nonneg pz]
      have hsne : px * px + py * py + pz * pz ≠ 0 := by
        intro h0
        rw [h0, Real.sqrt_zero] at hm
        exact hm rfl
      have hm2 : Real.sqrt (px * px + py * py + pz * pz) ^ 2 =
          px * px + py * py + pz * pz := Real.sq_sqrt hs
      rw [div_pow, div_pow, div_pow, hm2]
      rw [div_add_div_same, div_add_div_same]
      rw [show px ^ 2 + py ^ 2 + pz ^ 2 = px * px + py * py + pz * pz by ring]
      exact div_self hsne

/-- C3 amended: validation synthesizes a trajectory only when the particle's
trajectory field is JavaScript-falsy (absent); the synthesized line has
exactly 6 points starting at the ORIGIN (the event vertex is never passed to
the synthesis) along the unit-normalized momentum with the i-th point at
parameter distance i (total span 5.0), or is the single zero point when the
momentum magnitude is exactly zero.  A present trajectory array — even one
with a single point — is kept with its point count unchanged. -/
theorem trajectory_synthesis_amended (p q : JSVal)
    (hok : validateParticle p = Except.ok q) :
    (jsTruthy (getField p "trajectory") = false →
      getField q "trajectory" = arr (generateSimpleTrajectory
        (asNum (getField p "px")) (asNum (getField p "py"))
        (asNum (getField p "pz"))) ∧
      (Real.sqrt (asNum (getField p "px") * asNum (getField p "px") +
          asNum (getField p "py") * asNum (getField p "py") +
          asNum (getField p "pz") * asNum (getField p "pz")) = 0 →
        generateSimpleTrajectory (asNum (getField p "px"))
          (asNum (getField p "py")) (asNum (getField p "pz")) =
          [pointObj (num 0) (num 0) (num 0)]) ∧
      (Real.sqrt (asNum (getField p "px") * asNum (getField p "px") +
          asNum (getField p "py") * asNum (getField p "py") +
          asNum (getField p "pz") * asNum (getField p "pz")) ≠ 0 →
        (generateSimpleTrajectory (asNum (getField p "px"))
          (asNum (getField p "py")) (asNum (getField p "pz"))).length = 6)) ∧
    (∀ pts tps, getField p "trajectory" = arr pts →
      getField q "trajectory" = arr tps → tps.length = pts.length) := by
  obtain ⟨fs, traj, hpfs, hq, htraj, hder, hframe, hsynth, hpresent, hrest⟩ :=
    validateParticle_ok_elim p q hok
  constructor
  · intro hfalsy
    refine ⟨?_, (generateSimpleTrajectory_spec _ _ _).1,
      fun hm => ((generateSimpleTrajectory_spec _ _ _).2 hm).1⟩
    rw [htraj, hsynth hfalsy]
  · intro pts tps hpts htps
    have h1 := hpresent pts hpts
    rw [htraj] at htps
    have : traj = tps := by injection htps
    rw [← this]
    exact validatePoints_ok_length pts traj h1

/-- A raw particle with unit momentum along x and no trajectory field. -/
def noTrajectoryParticle : JSVal :=
  JSVal.obj [("id", num 1), ("type", str "muon"), ("px", num 1), ("py", num 0),
    ("pz", num 0), ("E", num 1)]

/-- Witness instantiating the amended C3 theorem: the synthesized trajectory
of the unit-momentum particle has exactly 6 points. -/
theorem trajectory_synthesis_amended_witness :
    (generateSimpleTrajectory 1 0 0).length = 6 := by
  have hm : Real.sqrt ((1 : Real) * 1 + 0 * 0 + 0 * 0) ≠ 0 := by
    rw [show ((1 : Real) * 1 + 0 * 0 + 0 * 0) = 1 by norm_num, Real.sqrt_one]
    norm_num
  have h := (trajectory_synthesis_amended noTrajectoryParticle
    (JSVal.obj (setKey (setKey (fieldsOf noTrajectoryParticle) "trajectory"
      (arr (generateSimpleTrajectory (asNum (getField noTrajectoryParticle "px"))
        (asNum (getField noTrajectoryParticle "py"))
        (asNum (getField noTrajectoryParticle "pz"))))) "derived"
      (derivedObj (asNum (getField noTrajectoryParticle "px"))
        (asNum (getField noTrajectoryParticle "py"))
        (asNum (getField noTrajectoryParticle "pz"))))) rfl).1 rfl
  exact h.2.2 hm

/-- A raw particle carrying a one-point trajectory. -/
def onePointParticle : JSVal :=
  JSVal.obj [("id", num 1), ("type", str "muon"), ("px", num 1), ("py", num 0),
    ("pz", num 0), ("E", num 1),
    ("trajectory", arr [pointObj (num 5) (num 6) (num 7)])]

/-- An event whose vertex is (1,1,1) and whose single particle has no
trajectory. -/
def vertexEvent : JSVal :=
  JSVal.obj [("event_id", str "evt-2"),
    ("vertex", pointObj (num 1) (num 1) (num 1)),
    ("particles", arr [noTrajectoryParticle])]

/-- First point of the first particle's trajectory of a validated event. -/
noncomputable def firstParticleTrajectoryHead (v : JSVal) : Option JSVal :=
  match getField v "particles" with
  | arr (q :: _) =>
    match getField q "trajectory" with
    | arr pts => pts.head?
    | _ => none
  | _ => none

/-- C3 counterexample: (i) a particle with a PRESENT one-point trajectory
keeps that single point — validation does not synthesize the claimed 6-point
line; (ii) for an event with vertex (1,1,1) the synthesized trajectory of a
trajectory-less particle starts at the origin (0,0,0), not at the event
vertex. -/
theorem trajectory_synthesis_cex :
    ((validateParticle onePointParticle).map fun q => getField q "trajectory") =
      Except.ok (arr [pointObj (num 5) (num 6) (num 7)]) ∧
    ([pointObj (num 5) (num 6) (num 7)].length = 1 ∧ (1 : Nat) ≠ 6) ∧
    ((validateEvent "t" vertexEvent).map firstParticleTrajectoryHead) =
      Except.ok (some (pointObj (num 0) (num 0) (num 0))) ∧
    getField vertexEvent "vertex" = pointObj (num 1) (num 1) (num 1) ∧
    ¬pointObj (num 0) (num 0) (num 0) = pointObj (num 1) (num 1) (num 1) := by
  have hm : Real.sqrt ((1 : Real) * 1 + 0 * 0 + 0 * 0) ≠ 0 := by
    rw [show ((1 : Real) * 1 + 0 * 0 + 0 * 0) = 1 by norm_num, Real.sqrt_one]
    norm_num
  refine ⟨rfl, ⟨rfl, by norm_num⟩, ?_, rfl, ?_⟩
  · have hred : ((validateEvent "t" vertexEvent).map firstParticleTrajectoryHead) =
        Except.ok ((generateSimpleTrajectory 1 0 0).head?) := rfl
    rw [hred]
    have h0 := ((generateSimpleTrajectory_spec 1 0 0).2 hm).2.1 0 (by norm_num)
    rw [List.head?_eq_getElem?, h0]
    norm_num
  · intro h
    simp only [pointObj, JSVal.obj.injEq] at h
    simp at h

end ClaimC3

section ClaimC6

open JSVal

/-- The stored pseudorapidity is zero exactly for vanishing longitudinal
momentum: for `pz = 0` the code short-circuits to 0; for `pz ≠ 0` the angle
`atan2(pt, abs pz)` lies in `[0, pi/2)`, its half-angle tangent in `[0, 1)`,
so the negated logarithm is strictly positive (or `+Infinity` when `pt = 0`),
never zero. -/
theorem etaE_eq_zero_iff (px py pz : Real) : etaE px py pz = 0 ↔ pz = 0 := by
  constructor
  · intro h
    by_contra hpz
    rw [etaE, if_neg hpz] at h
    have hpz0 : 0 < |pz| := abs_pos.mpr hpz
    have hpt0 : 0 ≤ Real.sqrt (px * px + py * py) := Real.sqrt_nonneg _
    rw [jsAtan2, if_pos hpz0] at h
    by_cases hpt : Real.sqrt (px * px + py * py) = 0
    · rw [hpt] at h
      rw [zero_div, Real.arctan_zero] at h
      exfalso
      revert h
      norm_num [Real.tan_zero, jsLogE]
    · have hr : 0 < Real.sqrt (px * px + py * py) / |pz| :=
        div_pos (lt_of_le_of_ne hpt0 (Ne.symm hpt)) hpz0
      have hθ0 : 0 < Real.arctan (Real.sqrt (px * px + py * py) / |pz|) := by
        rw [show (0 : Real) = Real.arctan 0 from Real.arctan_zero.symm]
        exact Real.arctan_strictMono hr
      have hθ2 : Real.arctan (Real.sqrt (px * px + py * py) / |pz|) < Real.pi / 2 :=
        Real.arctan_lt_pi_div_two _
      have hhalf0 : 0 < Real.arctan (Real.sqrt (px * px + py * py) / |pz|) / 2 := by
        linarith
      have hhalf2 : Real.arctan (Real.sqrt (px * px + py * py) / |pz|) / 2 <
          Real.pi / 4 := by linarith
      have hpi4 : Real.pi / 4 < Real.pi / 2 := by
        linarith [Real.pi_pos]
      have ht0 : 0 < Real.tan
          (Real.arctan (Real.sqrt (px * px + py * py) / |pz|) / 2) :=
        Real.tan_pos_of_pos_of_lt_pi_div_two hhalf0 (by linarith)
      have ht1 : Real.tan (Real.arctan (Real.sqrt (px * px + py * py) / |pz|) / 2) <
          1 := by
        rw [show (1 : Real) = Real.tan (Real.pi / 4) from Real.tan_pi_div_four.symm]
        exact Real.tan_lt_tan_of_nonneg_of_lt_pi_div_two (le_of_lt hhalf0) hpi4 hhalf2
      rw [jsLogE, if_neg (ne_of_gt ht0)] at h
      rw [show -((Real.log (Real.tan (Real.arctan
          (Real.sqrt (px * px + py * py) / |pz|) / 2)) : Real) : EReal) =
          ((-Real.log (Real.tan (Real.arctan
          (Real.sqrt (px * px + py * py) / |pz|) / 2)) : Real) : EReal) from
        (EReal.coe_neg _).symm ▸ rfl] at h
      rw [EReal.coe_eq_zero] at h
      have hlog : Real.log (Real.tan (Real.arctan
          (Real.sqrt (px * px + py * py) / |pz|) / 2)) < 0 := Real.log_neg ht0 ht1
      linarith [h, hlog]
  · intro h
    rw [etaE, if_pos h]

/-- C6: the derived kinematics attached at validation are a pure function of
the momentum components and satisfy `pt = sqrt(px^2+py^2)`,
`momentum = sqrt(px^2+py^2+pz^2)`, `phi = atan2(py, px)` and the stored `eta`
is the finite shadow of the extended-real
`-ln(tan(atan2(pt, abs pz) / 2))` (zero-guarded), which is zero exactly when
`pz = 0`. -/
theorem derived_kinematics_formulas (p q : JSVal)
    (hok : validateParticle p = Except.ok q) :
    getField q "derived" = derivedObj (asNum (getField p "px"))
      (asNum (getField p "py")) (asNum (getField p "pz")) ∧
    ∀ px py pz : Real,
      getField (derivedObj px py pz) "pt" = num (Real.sqrt (px ^ 2 + py ^ 2)) ∧
      getField (derivedObj px py pz) "momentum" =
        num (Real.sqrt (px ^ 2 + py ^ 2 + pz ^ 2)) ∧
      getField (derivedObj px py pz) "phi" = num (jsAtan2 py px) ∧
      getField (derivedObj px py pz) "eta" = num ((etaE px py pz).toReal) ∧
      (etaE px py pz = 0 ↔ pz = 0) := by
  obtain ⟨fs, traj, hpfs, hq, htraj, hder, hframe, hrest⟩ :=
    validateParticle_ok_elim p q hok
  refine ⟨hder, ?_⟩
  intro px py pz
  have e1 : px * px + py * py = px ^ 2 + py ^ 2 := by ring
  have e2 : px * px + py * py + pz * pz = px ^ 2 + py ^ 2 + pz ^ 2 := by ring
  refine ⟨?_, ?_, ?_, ?_, etaE_eq_zero_iff px py pz⟩
  · simp [derivedObj, getField, List.lookup, e1]
  · simp [derivedObj, getField, List.lookup, e2]
  · simp [derivedObj, getField, List.lookup]
  · simp [derivedObj, getField, List.lookup, etaReal]

/-- Witness instantiating C6 on the unit-momentum particle: the iff direction
gives a vanishing pseudorapidity for `pz = 0`. -/
theorem derived_kinematics_formulas_witness : etaE 1 0 0 = 0 :=
  ((derived_kinematics_formulas noTrajectoryParticle
    (JSVal.obj (setKey (setKey (fieldsOf noTrajectoryParticle) "trajectory"
      (arr (generateSimpleTrajectory (asNum (getField noTrajectoryParticle "px"))
        (asNum (getField noTrajectoryParticle "py"))
        (asNum (getField noTrajectoryParticle "pz"))))) "derived"
      (derivedObj (asNum (getField noTrajectoryParticle "px"))
        (asNum (getField noTrajectoryParticle "py"))
        (asNum (getField noTrajectoryParticle "pz"))))) rfl).2 1 0 0).2.2.2.2.mpr rfl

end ClaimC6

section ClaimC7

open JSVal

/-- Anatomy of a successful point validation: the output is a fresh point
object with number-typed coordinates. -/
theorem validatePoint_ok_elim (pt q : JSVal) (h : validatePoint pt = Except.ok q) :
    ∃ x y z, q = pointObj x y z ∧ isNumTypeof x = true ∧ isNumTypeof y = true ∧
      isNumTypeof z = true := by
  simp only [validatePoint] at h
  split at h
  · exact absurd h (by simp)
  next h1 =>
    split at h
    · exact absurd h (by simp)
    next h2 =>
      obtain ⟨hx, hy, hz⟩ := not_not.mp h2
      exact ⟨_, _, _, ((Except.ok.injEq _ _).mp h).symm, hx, hy, hz⟩

/-- A point object with number-typed coordinates validates to itself. -/
theorem validatePoint_pointObj (x y z : JSVal) (hx : isNumTypeof x = true)
    (hy : isNumTypeof y = true) (hz : isNumTypeof z = true) :
    validatePoint (pointObj x y z) = Except.ok (pointObj x y z) := by
  have hgx : getField (pointObj x y z) "x" = x := by
    simp [pointObj, getField, List.lookup]
  have hgy : getField (pointObj x y z) "y" = y := by
    simp [pointObj, getField, List.lookup]
  have hgz : getField (pointObj x y z) "z" = z := by
    simp [pointObj, getField, List.lookup]
  simp only [validatePoint, hgx, hgy, hgz]
  rw [if_neg (not_not_intro ⟨rfl, rfl⟩), if_neg (not_not_intro ⟨hx, hy, hz⟩)]

/-- A list of self-validating points validates to itself. -/
theorem validatePoints_of_self (l : List JSVal)
    (h : ∀ pt ∈ l, validatePoint pt = Except.ok pt) :
    validatePoints l = Except.ok l := by
  induction l with
  | nil => rfl
  | cons p rest ih =>
    simp only [validatePoints]
    rw [h p (by simp), ih (fun pt hpt => h pt (by simp [hpt]))]
    rfl

/-- Validated trajectories validate to themselves. -/
theorem validatePoints_self (pts tps : List JSVal)
    (h : validatePoints pts = Except.ok tps) :
    validatePoints tps = Except.ok tps := by
  induction pts generalizing tps with
  | nil =>
    simp only [validatePoints] at h
    have : tps = [] := by injection h.symm
    subst this
    rfl
  | cons p rest ih =>
    simp only [validatePoints] at h
    cases hv : validatePoint p with
    | error e => rw [hv] at h; exact absurd h (by simp [Bind.bind, Except.bind])
    | ok q =>
      rw [hv] at h
      cases hr : validatePoints rest with
      | error e => rw [hr] at h; exact absurd h (by simp [Bind.bind, Except.bind])
      | ok qs =>
        rw [hr] at h
        have : tps = q :: qs := by
          simp [Bind.bind, Except.bind, pure, Except.pure] at h
          exact h.symm
        subst this
        obtain ⟨x, yy, z, hq, hx, hy, hz⟩ := validatePoint_ok_elim p q hv
        have hself : validatePoint q = Except.ok q := by
          rw [hq]
          exact validatePoint_pointObj x yy z hx hy hz
        simp only [validatePoints]
        rw [hself, ih qs hr]
        rfl

/-- The synthesized trajectory validates to itself (its points are literal
number-coordinate point objects). -/
theorem validatePoints_generateSimpleTrajectory (px py pz : Real) :
    validatePoints (generateSimpleTrajectory px py pz) =
      Except.ok (generateSimpleTrajectory px py pz) := by
  apply validatePoints_of_self
  intro pt hpt
  simp only [generateSimpleTrajectory] at hpt
  by_cases hm : Real.sqrt (px * px + py * py + pz * pz) = 0
  · rw [if_pos hm] at hpt
    simp at hpt
    rw [hpt]
    exact validatePoint_pointObj _ _ _ rfl rfl rfl
  · rw [if_neg hm] at hpt
    simp at hpt
    obtain ⟨i, hi, hpt⟩ := hpt
    rw [← hpt]
    exact validatePoint_pointObj _ _ _ rfl rfl rfl

/-- Validated particles validate to themselves. -/
theorem validateParticle_self (p q : JSVal) (hok : validateParticle p = Except.ok q) :
    validateParticle q = Except.ok q := by
  obtain ⟨fs, traj, hpfs, hq, htraj, hder, hframe, hsynth, hpresent, harr, hall, hnum⟩ :=
    validateParticle_ok_elim p q hok
  have hobjq : ∀ f, f ≠ "trajectory" → f ≠ "derived" → objHas q f = objHas p f := by
    intro f h1 h2
    rw [hq, objHas_obj_setKey, if_neg h2, objHas_obj_setKey, if_neg h1, hpfs]
  have hallq : requiredParticleFields.all (objHas q) = true := by
    simp only [requiredParticleFields, List.all_cons, List.all_nil,
      Bool.and_eq_true] at hall ⊢
    refine ⟨?_, ?_, ?_, ?_, ?_, ?_, trivial⟩
    · rw [hobjq "id" (by decide) (by decide)]; exact hall.1
    · rw [hobjq "type" (by decide) (by decide)]; exact hall.2.1
    · rw [hobjq "px" (by decide) (by decide)]; exact hall.2.2.1
    · rw [hobjq "py" (by decide) (by decide)]; exact hall.2.2.2.1
    · rw [hobjq "pz" (by decide) (by decide)]; exact hall.2.2.2.2.1
    · rw [hobjq "E" (by decide) (by decide)]; exact hall.2.2.2.2.2.1
  have hnumq : numericParticleFields.all (fun f => isFiniteNum (getField q f)) = true := by
    simp only [numericParticleFields, List.all_cons, List.all_nil,
      Bool.and_eq_true] at hnum ⊢
    refine ⟨?_, ?_, ?_, ?_, trivial⟩
    · rw [hframe "px" (by decide) (by decide)]; exact hnum.1
    · rw [hframe "py" (by decide) (by decide)]; exact hnum.2.1
    · rw [hframe "pz" (by decide) (by decide)]; exact hnum.2.2.1
    · rw [hframe "E" (by decide) (by decide)]; exact hnum.2.2.2.1
  have hpoints : validatePoints traj = Except.ok traj := by
    cases htv : jsTruthy (getField p "trajectory") with
    | false =>
      rw [hsynth htv]
      exact validatePoints_generateSimpleTrajectory _ _ _
    | true =>
      obtain ⟨pts, hpts⟩ := harr htv
      exact validatePoints_self pts traj (hpresent pts hpts)
  have hpx : getField q "px" = getField p "px" := hframe "px" (by decide) (by decide)
  have hpy : getField q "py" = getField p "py" := hframe "py" (by decide) (by decide)
  have hpz : getField q "pz" = getField p "pz" := hframe "pz" (by decide) (by decide)
  have hqobj : jsTruthy q = true ∧ jsTypeof q = "object" := by
    rw [hq]
    exact ⟨rfl, rfl⟩
  have hfself : setKey (setKey (fieldsOf q) "trajectory" (arr traj)) "derived"
      (derivedObj (asNum (getField p "px")) (asNum (getField p "py"))
        (asNum (getField p "pz"))) = fieldsOf q := by
    have hfq : fieldsOf q = setKey (setKey fs "trajectory" (arr traj)) "derived"
        (derivedObj (asNum (getField p "px")) (asNum (getField p "py"))
          (asNum (getField p "pz"))) := by
      rw [hq]
      rfl
    have hlt : List.lookup "trajectory" (fieldsOf q) = some (arr traj) := by
      rw [hfq, lookup_setKey, if_neg (by decide), lookup_setKey, if_pos rfl]
    have hs1 : setKey (fieldsOf q) "trajectory" (arr traj) = fieldsOf q :=
      setKey_self _ _ _ hlt
    rw [hs1]
    have hld : List.lookup "derived" (fieldsOf q) =
        some (derivedObj (asNum (getField p "px")) (asNum (getField p "py"))
          (asNum (getField p "pz"))) := by
      rw [hfq, lookup_setKey, if_pos rfl]
    exact setKey_self _ _ _ hld
  have hback : JSVal.obj (fieldsOf q) = q := by
    rw [hq]
    rfl
  simp only [validateParticle]
  rw [if_neg (not_not_intro hqobj), if_neg (not_not_intro hallq),
    if_neg (not_not_intro hnumq), htraj]
  rw [if_pos (show jsTruthy (arr traj) = true from rfl)]
  simp only [hpoints, hpx, hpy, hpz]
  rw [hfself, hback]

/-- Validated particle lists validate to themselves. -/
theorem validateParticles_self (ps vps : List JSVal)
    (h : validateParticles ps = Except.ok vps) :
    validateParticles vps = Except.ok vps := by
  induction ps generalizing vps with
  | nil =>
    simp only [validateParticles] at h
    have : vps = [] := by injection h.symm
    subst this
    rfl
  | cons p rest ih =>
    simp only [validateParticles] at h
    cases hv : validateParticle p with
    | error e => rw [hv] at h; exact absurd h (by simp [Bind.bind, Except.bind])
    | ok q =>
      rw [hv] at h
      cases hr : validateParticles rest with
      | error e => rw [hr] at h; exact absurd h (by simp [Bind.bind, Except.bind])
      | ok qs =>
        rw [hr] at h
        have : vps = q :: qs := by
          simp [Bind.bind, Except.bind, pure, Except.pure] at h
          exact h.symm
        subst this
        simp only [validateParticles]
        rw [validateParticle_self p q hv, ih qs hr]
        rfl

/-- C7: `validateEvent` is pure (the embedding is a function of its input and
never mutates it) and idempotent on its own output: re-validating a validated
event succeeds, and the particles array — including every derived field and
trajectory — is reproduced bit for bit (only the metadata timestamp is
refreshed). -/
theorem validateEvent_idempotent (now now2 : String) (ev v : JSVal)
    (hok : validateEvent now ev = Except.ok v) :
    ∃ v2, validateEvent now2 v = Except.ok v2 ∧
      getField v2 "particles" = getField v "particles" := by
  obtain ⟨efs, ps, vps, md, hefs, hps, hvalps, hv, hvps, hframe, hall, hvt, hvto,
    hvx, hvy, hvz⟩ := validateEvent_ok_elim now ev v hok
  have hobjv : ∀ f, f ≠ "particles" → f ≠ "metadata" → objHas v f = objHas ev f := by
    intro f h1 h2
    rw [hv, objHas_obj_setKey, if_neg h2, objHas_obj_setKey, if_neg h1, hefs]
  have hallv : requiredEventFields.all (objHas v) = true := by
    simp only [requiredEventFields, List.all_cons, List.all_nil,
      Bool.and_eq_true] at hall ⊢
    refine ⟨?_, ?_, ?_, trivial⟩
    · rw [hobjv "event_id" (by decide) (by decide)]; exact hall.1
    · rw [hv, objHas_obj_setKey, if_neg (by decide), objHas_obj_setKey, if_pos rfl]
    · rw [hobjv "vertex" (by decide) (by decide)]; exact hall.2.2.1
  have hvertex : getField v "vertex" = getField ev "vertex" :=
    hframe "vertex" (by decide) (by decide)
  have hvobj : jsTruthy v = true ∧ jsTypeof v = "object" := by
    rw [hv]
    exact ⟨rfl, rfl⟩
  have hvalps2 : validateParticles vps = Except.ok vps :=
    validateParticles_self ps vps hvalps
  refine ⟨JSVal.obj (setKey (setKey (fieldsOf v) "particles" (arr vps)) "metadata"
      (JSVal.obj (List.foldl (fun fs kv => setKey fs kv.1 kv.2)
        (fieldsOf (getField v "metadata"))
        [("particle_count", num vps.length), ("validated_at", str now2)]))), ?_, ?_⟩
  · simp only [validateEvent]
    rw [if_neg (not_not_intro hvobj), if_neg (not_not_intro hallv), hvertex,
      if_neg (not_not_intro ⟨hvt, hvto⟩), if_neg (not_not_intro ⟨hvx, hvy, hvz⟩),
      hvps]
    simp only [hvalps2]
  · rw [getField_obj_setKey, if_neg (by decide), getField_obj_setKey, if_pos rfl,
      hvps]

/-- An empty-particle raw event used to instantiate the idempotence theorem. -/
def emptyRawEvent : JSVal :=
  JSVal.obj [("event_id", str "evt-0"),
    ("vertex", pointObj (num 0) (num 0) (num 0)),
    ("particles", arr [])]

/-- Witness instantiating C7 on a concrete validated event. -/
theorem validateEvent_idempotent_witness :
    ∃ v2, validateEvent "t2"
        (JSVal.obj (setKey (setKey (fieldsOf emptyRawEvent) "particles" (arr []))
          "metadata" (JSVal.obj (List.foldl (fun fs kv => setKey fs kv.1 kv.2)
            (fieldsOf (getField emptyRawEvent "metadata"))
            [("particle_count", num (0 : Nat)), ("validated_at", str "t1")])))) =
      Except.ok v2 ∧
    getField v2 "particles" =
      getField (JSVal.obj (setKey (setKey (fieldsOf emptyRawEvent) "particles" (arr []))
        "metadata" (JSVal.obj (List.foldl (fun fs kv => setKey fs kv.1 kv.2)
          (fieldsOf (getField emptyRawEvent "metadata"))
          [("particle_count", num (0 : Nat)), ("validated_at", str "t1")]))))
        "particles" :=
  validateEvent_idempotent "t1" "t2" emptyRawEvent _ rfl

end ClaimC7


section ClaimC5

open JSVal

/-- Did the validation succeed? -/
def exceptOk {α : Type} : Except String α → Bool
  | Except.ok _ => true
  | Except.error _ => false

/-- The point-schema failure of the claim: not a (truthy) object, or a
coordinate whose `typeof` is not "number". -/
noncomputable def pointFails (pt : JSVal) : Bool :=
  decide (¬(jsTruthy pt = true ∧ jsTypeof pt = "object")) ||
  decide (¬(isNumTypeof (getField pt "x") = true ∧ isNumTypeof (getField pt "y") = true ∧
    isNumTypeof (getField pt "z") = true))

/-- The failure condition MISSING from the claim: a trajectory field that is
JavaScript-truthy but not an array. -/
noncomputable def trajectoryNotArray (p : JSVal) : Bool :=
  jsTruthy (getField p "trajectory") && !isArr (getField p "trajectory")

/-- The per-particle failure conditions listed by the claim (read charitably:
"missing field" is key absence, which also covers non-object particles):
a required field of `id`, `type`, `px`, `py`, `pz`, `E` missing; a numeric
field that is not a non-NaN number; or a present trajectory array containing a
point that fails the point schema. -/
noncomputable def particleListedFailure (p : JSVal) : Bool :=
  decide (¬(requiredParticleFields.all (objHas p) = true)) ||
  decide (¬(numericParticleFields.all (fun f => isFiniteNum (getField p f)) = true)) ||
  (match getField p "trajectory" with
   | JSVal.arr pts => pts.any pointFails
   | _ => false)

/-- The event-level failure conditions listed by the claim: `event_id`,
`particles` or `vertex` absent; a vertex coordinate that is not numeric (which
also covers a non-object vertex); `particles` not a sequence; or a particle
failing one of the listed particle conditions. -/
noncomputable def eventListedFailure (ev : JSVal) : Bool :=
  decide (¬(requiredEventFields.all (objHas ev) = true)) ||
  decide (¬(isNumTypeof (getField (getField ev "vertex") "x") = true ∧
    isNumTypeof (getField (getField ev "vertex") "y") = true ∧
    isNumTypeof (getField (getField ev "vertex") "z") = true)) ||
  !isArr (getField ev "particles") ||
  (match getField ev "particles" with
   | JSVal.arr ps => ps.any particleListedFailure
   | _ => false)

/-- The full failure condition of the code: the listed conditions plus the
truthy-but-non-array trajectory the claim omits. -/
noncomputable def eventValidationFails (ev : JSVal) : Bool :=
  eventListedFailure ev ||
  (match getField ev "particles" with
   | JSVal.arr ps => ps.any trajectoryNotArray
   | _ => false)

/-- Point validation fails exactly on a point-schema failure. -/
theorem validatePoint_ok_iff (pt : JSVal) :
    exceptOk (validatePoint pt) = !pointFails pt := by
  simp only [validatePoint, pointFails]
  by_cases h1 : ¬(jsTruthy pt = true ∧ jsTypeof pt = "object")
  · rw [if_pos h1]
    simp [exceptOk, h1]
  · rw [if_neg h1]
    by_cases h2 : ¬(isNumTypeof (getField pt "x") = true ∧
        isNumTypeof (getField pt "y") = true ∧ isNumTypeof (getField pt "z") = true)
    · rw [if_pos h2]
      simp [exceptOk, h1, h2]
    · rw [if_neg h2]
      simp [exceptOk, h1, h2]

/-- Trajectory validation fails exactly when some point fails. -/
theorem validatePoints_ok_iff (pts : List JSVal) :
    exceptOk (validatePoints pts) = !pts.any pointFails := by
  induction pts with
  | nil => rfl
  | cons p rest ih =>
    simp only [validatePoints, List.any_cons]
    cases hv : validatePoint p with
    | error e =>
      have hf : pointFails p = true := by
        have h := validatePoint_ok_iff p
        rw [hv] at h
        cases hl : pointFails p
        · rw [hl] at h
          exact absurd h (by simp [exceptOk])
        · rfl
      simp [Bind.bind, Except.bind, exceptOk, hf]
    | ok q =>
      have hf : pointFails p = false := by
        have h := validatePoint_ok_iff p
        rw [hv] at h
        cases hl : pointFails p
        · rfl
        · rw [hl] at h
          exact absurd h (by simp [exceptOk])
      cases hr : validatePoints rest with
      | error e =>
        have hany : rest.any pointFails = true := by
          have h := ih
          rw [hr] at h
          cases hl : rest.any pointFails
          · rw [hl] at h
            exact absurd h (by simp [exceptOk])
          · rfl
        simp [Bind.bind, Except.bind, exceptOk, hf, hany]
      | ok qs =>
        have hany : rest.any pointFails = false := by
          have h := ih
          rw [hr] at h
          cases hl : rest.any pointFails
          · rfl
          · rw [hl] at h
            exact absurd h (by simp [exceptOk])
        simp [Bind.bind, Except.bind, exceptOk, pure, Except.pure, hf, hany]

/-- Particle validation fails exactly on a listed condition or on the omitted
truthy-but-non-array trajectory. -/
theorem validateParticle_ok_iff (p : JSVal) :
    exceptOk (validateParticle p) =
      !(particleListedFailure p || trajectoryNotArray p) := by
  by_cases h1 : ¬(jsTruthy p = true ∧ jsTypeof p = "object")
  · have hreq : requiredParticleFields.all (objHas p) = false := by
      cases p with
      | obj fs => exact absurd ⟨rfl, rfl⟩ h1
      | arr xs => exact absurd ⟨rfl, rfl⟩ h1
      | num x => simp [objHas, requiredParticleFields]
      | nan => simp [objHas, requiredParticleFields]
      | str sx => simp [objHas, requiredParticleFields]
      | bool b => simp [objHas, requiredParticleFields]
      | null => simp [objHas, requiredParticleFields]
      | undefined => simp [objHas, requiredParticleFields]
    simp only [validateParticle, particleListedFailure]
    rw [if_pos h1]
    simp [exceptOk, hreq]
  · simp only [validateParticle, particleListedFailure]
    rw [if_neg h1]
    by_cases h2 : ¬(requiredParticleFields.all (objHas p) = true)
    · rw [if_pos h2]
      simp [exceptOk, h2]
    · rw [if_neg h2]
      by_cases h3 : ¬(numericParticleFields.all (fun f => isFiniteNum (getField p f)) = true)
      · rw [if_pos h3]
        simp [exceptOk, h2, h3]
      · rw [if_neg h3]
        have h2t : requiredParticleFields.all (objHas p) = true := not_not.mp h2
        have h3t : (numericParticleFields.all fun f => isFiniteNum (getField p f)) =
            true := not_not.mp h3
        by_cases h4 : jsTruthy (getField p "trajectory") = true
        · rw [if_pos h4]
          cases htv : getField p "trajectory" with
          | arr pts =>
            cases hvp : validatePoints pts with
            | ok tps =>
              have hany : pts.any pointFails = false := by
                have h := validatePoints_ok_iff pts
                rw [hvp] at h
                cases hl : pts.any pointFails
                · rfl
                · rw [hl] at h
                  exact absurd h (by simp [exceptOk])
              simp [exceptOk, h2t, h3t, hany, trajectoryNotArray, htv, isArr, hvp]
            | error e =>
              have hany : pts.any pointFails = true := by
                have h := validatePoints_ok_iff pts
                rw [hvp] at h
                cases hl : pts.any pointFails
                · rw [hl] at h
                  exact absurd h (by simp [exceptOk])
                · rfl
              simp [exceptOk, hany, hvp]
          | num x =>
            rw [htv] at h4
            simp [exceptOk, trajectoryNotArray, htv, isArr, h4]
          | nan => rw [htv] at h4; simp [jsTruthy] at h4
          | str sx =>
            rw [htv] at h4
            simp [exceptOk, trajectoryNotArray, htv, isArr, h4]
          | bool b =>
            rw [htv] at h4
            simp [exceptOk, trajectoryNotArray, htv, isArr, h4]
          | null => rw [htv] at h4; simp [jsTruthy] at h4
          | undefined => rw [htv] at h4; simp [jsTruthy] at h4
          | obj fs =>
            rw [htv] at h4
            simp [exceptOk, trajectoryNotArray, htv, isArr, h4]
        · rw [if_neg h4]
          have hfalsy : jsTruthy (getField p "trajectory") = false := by
            simpa using h4
          cases htv : getField p "trajectory" with
          | arr pts =>
            rw [htv] at hfalsy
            simp [jsTruthy] at hfalsy
          | num x =>
            simp [exceptOk, h2t, h3t, trajectoryNotArray, htv,
              htv ▸ hfalsy]
          | nan => simp [exceptOk, h2t, h3t, trajectoryNotArray, htv, jsTruthy]
          | str sx =>
            simp [exceptOk, h2t, h3t, trajectoryNotArray, htv,
              htv ▸ hfalsy]
          | bool b =>
            simp [exceptOk, h2t, h3t, trajectoryNotArray, htv,
              htv ▸ hfalsy]
          | null => simp [exceptOk, h2t, h3t, trajectoryNotArray, htv, jsTruthy]
          | undefined => simp [exceptOk, h2t, h3t, trajectoryNotArray, htv, jsTruthy]
          | obj fs =>
            rw [htv] at hfalsy
            simp [jsTruthy] at hfalsy

/-- Particle-list validation fails exactly when some particle fails. -/
theorem validateParticles_ok_iff (ps : List JSVal) :
    exceptOk (validateParticles ps) =
      !(ps.any fun p => particleListedFailure p || trajectoryNotArray p) := by
  induction ps with
  | nil => rfl
  | cons p rest ih =>
    simp only [validateParticles, List.any_cons]
    cases hv : validateParticle p with
    | error e =>
      have hf : (particleListedFailure p || trajectoryNotArray p) = true := by
        have h := validateParticle_ok_iff p
        rw [hv] at h
        cases hl : (particleListedFailure p || trajectoryNotArray p)
        · rw [hl] at h
          exact absurd h (by simp [exceptOk])
        · rfl
      simp [Bind.bind, Except.bind, exceptOk, hf]
    | ok q =>
      have hf : (particleListedFailure p || trajectoryNotArray p) = false := by
        have h := validateParticle_ok_iff p
        rw [hv] at h
        cases hl : (particleListedFailure p || trajectoryNotArray p)
        · rfl
        · rw [hl] at h
          exact absurd h (by simp [exceptOk])
      cases hr : validateParticles rest with
      | error e =>
        have hany : (rest.any fun x => particleListedFailure x ||
            trajectoryNotArray x) = true := by
          have h := ih
          rw [hr] at h
          cases hl : (rest.any fun x => particleListedFailure x || trajectoryNotArray x)
          · rw [hl] at h
            exact absurd h (by simp [exceptOk])
          · rfl
        simp [Bind.bind, Except.bind, exceptOk, hf, hany]
      | ok qs =>
        have hany : (rest.any fun x => particleListedFailure x ||
            trajectoryNotArray x) = false := by
          have h := ih
          rw [hr] at h
          cases hl : (rest.any fun x => particleListedFailure x || trajectoryNotArray x)
          · rfl
          · rw [hl] at h
            exact absurd h (by simp [exceptOk])
        simp [Bind.bind, Except.bind, exceptOk, pure, Except.pure, hf, hany]

/-- C5 amended: validation fails — and, the embedding being an `Except`, the
whole load then aborts with no validated event produced (all-or-nothing) —
exactly when a condition listed by the claim holds (a required event field
absent, a vertex coordinate not `typeof`-numeric, `particles` not a sequence,
a particle missing a required field, a particle numeric field non-numeric/NaN,
or a present trajectory point failing the point schema) OR when a particle's
trajectory field is truthy but not an array, a failure condition the claim
omits. -/
theorem validateEvent_error_iff (now : String) (ev : JSVal) :
    exceptOk (validateEvent now ev) = !eventValidationFails ev := by
  by_cases h1 : ¬(jsTruthy ev = true ∧ jsTypeof ev = "object")
  · have hreq : requiredEventFields.all (objHas ev) = false := by
      cases ev with
      | obj fs => exact absurd ⟨rfl, rfl⟩ h1
      | arr xs => exact absurd ⟨rfl, rfl⟩ h1
      | num x => simp [objHas, requiredEventFields]
      | nan => simp [objHas, requiredEventFields]
      | str sx => simp [objHas, requiredEventFields]
      | bool b => simp [objHas, requiredEventFields]
      | null => simp [objHas, requiredEventFields]
      | undefined => simp [objHas, requiredEventFields]
    simp only [validateEvent, eventValidationFails, eventListedFailure]
    rw [if_pos h1]
    simp [exceptOk, hreq]
  · simp only [validateEvent, eventValidationFails, eventListedFailure]
    rw [if_neg h1]
    by_cases h2 : ¬(requiredEventFields.all (objHas ev) = true)
    · rw [if_pos h2]
      simp [exceptOk, h2]
    · rw [if_neg h2]
      have h2t : requiredEventFields.all (objHas ev) = true := not_not.mp h2
      by_cases h3 : ¬(jsTruthy (getField ev "vertex") = true ∧
          jsTypeof (getField ev "vertex") = "object")
      · rw [if_pos h3]
        have hvbad : ¬(isNumTypeof (getField (getField ev "vertex") "x") = true ∧
            isNumTypeof (getField (getField ev "vertex") "y") = true ∧
            isNumTypeof (getField (getField ev "vertex") "z") = true) := by
          intro hcontra
          apply h3
          cases htv : getField ev "vertex" with
          | obj fs => exact ⟨rfl, rfl⟩
          | arr xs => exact ⟨rfl, rfl⟩
          | num x =>
            rw [htv] at hcontra
            simp [getField, isNumTypeof] at hcontra
          | nan =>
            rw [htv] at hcontra
            simp [getField, isNumTypeof] at hcontra
          | str sx =>
            rw [htv] at hcontra
            simp [getField, isNumTypeof] at hcontra
          | bool b =>
            rw [htv] at hcontra
            simp [getField, isNumTypeof] at hcontra
          | null =>
            rw [htv] at hcontra
            simp [getField, isNumTypeof] at hcontra
          | undefined =>
            rw [htv] at hcontra
            simp [getField, isNumTypeof] at hcontra
        simp [exceptOk, hvbad]
      · rw [if_neg h3]
        by_cases h4 : ¬(isNumTypeof (getField (getField ev "vertex") "x") = true ∧
            isNumTypeof (getField (getField ev "vertex") "y") = true ∧
            isNumTypeof (getField (getField ev "vertex") "z") = true)
        · rw [if_pos h4]
          simp [exceptOk, h4]
        · rw [if_neg h4]
          have h4t := not_not.mp h4
          cases hps : getField ev "particles" with
          | arr ps =>
            cases hvps : validateParticles ps with
            | ok vps =>
              have hany : (ps.any fun p => particleListedFailure p ||
                  trajectoryNotArray p) = false := by
                have h := validateParticles_ok_iff ps
                rw [hvps] at h
                cases hl : (ps.any fun p => particleListedFailure p ||
                    trajectoryNotArray p)
                · rfl
                · rw [hl] at h
                  exact absurd h (by simp [exceptOk])
              have hany1 : ps.any particleListedFailure = false := by
                cases hl : ps.any particleListedFailure
                · rfl
                · rw [List.any_eq_true] at hl
                  obtain ⟨x, hx, hfx⟩ := hl
                  have hcontra : (ps.any fun p => particleListedFailure p ||
                      trajectoryNotArray p) = true := by
                    rw [List.any_eq_true]
                    exact ⟨x, hx, by simp [hfx]⟩
                  rw [hcontra] at hany
                  exact absurd hany (by simp)
              have hany2 : ps.any trajectoryNotArray = false := by
                cases hl : ps.any trajectoryNotArray
                · rfl
                · rw [List.any_eq_true] at hl
                  obtain ⟨x, hx, hfx⟩ := hl
                  have hcontra : (ps.any fun p => particleListedFailure p ||
                      trajectoryNotArray p) = true := by
                    rw [List.any_eq_true]
                    exact ⟨x, hx, by simp [hfx]⟩
                  rw [hcontra] at hany
                  exact absurd hany (by simp)
              simp [exceptOk, h2t, h4t, hany1, hany2, isArr, hvps]
            | error e =>
              have hany : (ps.any fun p => particleListedFailure p ||
                  trajectoryNotArray p) = true := by
                have h := validateParticles_ok_iff ps
                rw [hvps] at h
                cases hl : (ps.any fun p => particleListedFailure p ||
                    trajectoryNotArray p)
                · rw [hl] at h
                  exact absurd h (by simp [exceptOk])
                · rfl
              rw [List.any_eq_true] at hany
              obtain ⟨x, hx, hfx⟩ := hany
              rw [Bool.or_eq_true] at hfx
              cases hfx with
              | inl hl =>
                have hone : ps.any particleListedFailure = true := by
                  rw [List.any_eq_true]
                  exact ⟨x, hx, hl⟩
                simp [exceptOk, hone, hvps]
              | inr hr =>
                have hone : ps.any trajectoryNotArray = true := by
                  rw [List.any_eq_true]
                  exact ⟨x, hx, hr⟩
                simp [exceptOk, hone, hvps]
          | num x => simp [exceptOk, isArr]
          | nan => simp [exceptOk, isArr]
          | str sx => simp [exceptOk, isArr]
          | bool b => simp [exceptOk, isArr]
          | null => simp [exceptOk, isArr]
          | undefined => simp [exceptOk, isArr]
          | obj fs => simp [exceptOk, isArr]

/-- An event whose single (otherwise well-formed) particle carries a truthy
non-array trajectory. -/
def strTrajectoryEvent : JSVal :=
  JSVal.obj [("event_id", str "evt-3"),
    ("vertex", pointObj (num 0) (num 0) (num 0)),
    ("particles", arr [JSVal.obj [("id", num 1), ("type", str "muon"),
      ("px", num 1), ("py", num 1), ("pz", num 1), ("E", num 1),
      ("trajectory", str "oops")]])]

/-- C5 counterexample: the load of `strTrajectoryEvent` is rejected by the
code, yet none of the failure conditions listed by the claim holds — the
claimed "exactly when" enumeration misses the truthy-but-non-array trajectory
case. -/
theorem validateEvent_listed_cex :
    exceptOk (validateEvent "t" strTrajectoryEvent) = false ∧
    eventListedFailure strTrajectoryEvent = false := by
  constructor
  · rfl
  · rfl

end ClaimC5
